import Mathlib

/-!
# spool-mock: the article store of `msgid.go`

A shallow embedding of the three handlers of `src/msgid.go` (`Post`, `Get`,
`Msgid`) together with the state they act on: the two package-level maps
`config.Stores` and `config.Stats`, the article files on disk and the calls
made to the storage layer.

The handlers are deterministic once the answers of their surroundings are
fixed: which storage call fails, what the wall clock reads, in which order a
`range` over a map visits its keys.  Those answers are gathered in `Sys` and
passed in, so every function below is a total, computable function.
-/

namespace SpoolMock

/-! ## Go maps -/

/-- A Go `map[string]V`, kept as an association list.  Only `mget` and `mset`
read or write it, so the order of the list is never observed. -/
abbrev GoMap (V : Type) := List (String × V)

/-- The map read `v, ok := m[key]`: `none` stands for `ok == false`. -/
def mget {V : Type} : GoMap V → String → Option V
  | [], _ => none
  | (k, v) :: rest, key => if k = key then some v else mget rest key

/-- The map write `m[key] = val`. -/
def mset {V : Type} : GoMap V → String → V → GoMap V
  | [], key, val => [(key, val)]
  | (k, v) :: rest, key, val =>
    if k = key then (key, val) :: rest else (k, v) :: mset rest key val

/-! ## The data of package `config` that `msgid.go` touches -/

/-- The `config.File` record: the entry of a partition index. -/
structure File where
  Meta : GoMap String
  deriving DecidableEq, Repr

/-- The `config.DB` record, one partition: `Basedir` and `Files` are the fields
`msgid.go` reads, `Created` is the instant `Since` measures from. -/
structure DB where
  Basedir : String
  Created : Int
  Files : GoMap File
  deriving DecidableEq, Repr

/-- The `config.FileStat` record: `Count` (reads), `Last` (age at the last
read) and `Age` (age at ingest).  `Count` is an unbounded natural number: the
declared width of the field is not part of `msgid.go`. -/
structure FileStat where
  Count : Nat
  Last : Int
  Age : Int
  deriving DecidableEq, Repr

/-- The value type of `config.Stats`: the ledger of one partition. -/
structure StatDB where
  Files : GoMap FileStat
  deriving DecidableEq, Repr

/-- The zero value of `config.DB`, what `store, hasStore := config.Stores[today]`
leaves in `store` when the key is absent: empty `Basedir`, nil `Files`
(a nil map reads as empty). -/
def zeroDB : DB := ⟨"", 0, []⟩

/-- The zero value `config.FileStat{}`. -/
def zeroStat : FileStat := ⟨0, 0, 0⟩

/-- Modelled from the spec: `store.Since()`, whose body is in package `config`;
"the partition's elapsed age", the duration from the partition's creation to
the clock reading `clock`. -/
def DB.Since (store : DB) (clock : Int) : Int := clock - store.Created

/-! ## Requests, replies and the state -/

/-- The `PostInput` record of `msgid.go`. -/
structure PostInput where
  Msgid : String
  Body : String
  Meta : GoMap String
  deriving DecidableEq, Repr

/-- A call into the storage layer, recorded in the order it was made. -/
inductive Call
  | configCreate (day : String)
  | osCreate (path : String)
  | osOpen (path : String)
  | save (store : DB)
  | saveStats (basedir : String) (stats : StatDB)
  deriving DecidableEq, Repr

/-- What a handler wrote to the `http.ResponseWriter`: a
`httpd.DefaultResponse` through `FlushJson`, or plain-text bytes. -/
inductive Reply
  | json (Status : Bool) (Text : String)
  | plain (bytes : String)
  deriving DecidableEq, Repr

/-- The step whose error a handler returned. -/
inductive Step
  | decode | configCreate | osCreate | copy | save | osOpen | transmit
  deriving DecidableEq, Repr

/-- How a handler ended: `return nil`, `return e`, or a Go panic. -/
inductive Ret
  | nil
  | err (step : Step)
  | panic
  deriving DecidableEq, Repr

/-- The state the handlers share: `config.Stores`, `config.Stats`, the article
files by path, and the storage calls made so far. -/
structure World where
  Stores : GoMap DB
  Stats : GoMap StatDB
  disk : GoMap String
  calls : List Call
  deriving DecidableEq, Repr

/-- The result of running a handler: the state it leaves, what it wrote to the
response, how it ended, and the lines it printed with `fmt.Println`. -/
structure Run where
  world : World
  out : List Reply
  ret : Ret
  log : List String
  deriving DecidableEq, Repr

/-- The process configuration: `config.Verbose`, the directory `config.Create`
gives the partition of a day, and the two readers of packages `headreader` and
`bodyreader`, as functions of the stored bytes. -/
structure Config where
  Verbose : Bool
  dirOf : String → String
  headView : String → String
  bodyView : String → String

/-- The answers of the surroundings during one request: `true` on a fault
field makes that call return an error, whose text is `errText`; `torn` is what
a failed write left behind; `today` is `now.Format("2006-01-02")` and `nowTick`
the instant of `time.Now()`; `clock` is the wall clock when `store.Since()`
runs; `order` lists the keys `range config.Stores` visits first, the others
follow. -/
structure Sys where
  configCreate : Bool
  osCreate : Bool
  copy : Bool
  flush : Bool
  close : Bool
  save : Bool
  saveStats : Bool
  osOpen : Bool
  transmit : Bool
  torn : String
  errText : String
  today : String
  nowTick : Int
  clock : Int
  order : List String

/-- The deferred `f.Close()` of both handlers: its error is turned into a panic. -/
def closing (sys : Sys) (r : Run) : Run :=
  if sys.close then { r with ret := Ret.panic } else r

/-- Modelled from the spec: `config.Create(now)`, whose body is in package
`config`; "creates a new Volume (with a fresh baseDirectory, typically derived
from the date) and registers it", here together with the empty ledger of the
new partition. -/
def configCreate (cfg : Config) (sys : Sys) (w : World) : World :=
  { w with
    Stores := mset w.Stores sys.today ⟨cfg.dirOf sys.today, sys.nowTick, []⟩
    Stats := mset w.Stats sys.today ⟨[]⟩
    calls := w.calls ++ [Call.configCreate sys.today] }

/-! ## Post -/

/-- The line `WARN: Failed saving stats: ...` both handlers print when
`config.SaveStats` returns an error; nothing else follows from that error. -/
def statsWarning (sys : Sys) : List String :=
  if sys.saveStats then ["WARN: Failed saving stats: " ++ sys.errText] else []

/-- Lines 73-92 of `Post`: the index entry, `config.Save`, the ledger entry,
`config.SaveStats` and the reply.  `store` is the local variable of line 40,
`hasStore` its flag, `w` the state after the file was written. -/
def postRecord (cfg : Config) (sys : Sys) (inp : PostInput) (store : DB)
    (hasStore : Bool) (w : World) : Run :=
  -- config.Stores[today].Files[in.Msgid] = config.File{Meta: in.Meta}
  match mget w.Stores sys.today with
  | none => ⟨w, [], Ret.panic, []⟩
  | some cur =>
    let w1 : World :=
      { w with Stores := mset w.Stores sys.today
                 { cur with Files := mset cur.Files inp.Msgid ⟨inp.Meta⟩ } }
    -- `store.Files` is the same map as `config.Stores[today].Files` when the
    -- partition was found, and stays nil when it was not
    let store1 : DB :=
      if hasStore then { store with Files := mset store.Files inp.Msgid ⟨inp.Meta⟩ }
      else store
    let w2 : World := { w1 with calls := w1.calls ++ [Call.save store1] }
    if sys.save then ⟨w2, [], Ret.err Step.save, []⟩
    else
      -- stat := config.Stats[today].Files[in.Msgid]; stat.Age = store.Since()
      let stat : FileStat :=
        ((mget w2.Stats sys.today).bind (fun led => mget led.Files inp.Msgid)).getD zeroStat
      let stat1 : FileStat := { stat with Age := store1.Since sys.clock }
      match mget w2.Stats sys.today with
      | none => ⟨w2, [], Ret.panic, []⟩
      | some led =>
        let led1 : StatDB := { led with Files := mset led.Files inp.Msgid stat1 }
        let w3 : World :=
          { w2 with
            Stats := mset w2.Stats sys.today led1
            calls := w2.calls ++ [Call.saveStats store1.Basedir led1] }
        ⟨w3, [Reply.json true "Saved"], Ret.nil,
          statsWarning sys ++ (if cfg.Verbose then ["Saved " ++ inp.Msgid] else [])⟩

/-- Lines 53-71 of `Post`, followed by `postRecord`: `os.Create`, the deferred
`Close`, `io.Copy` into the buffered writer and `w.Flush()`, whose result the
source drops. -/
def postWrite (cfg : Config) (sys : Sys) (inp : PostInput) (store : DB)
    (hasStore : Bool) (w : World) : Run :=
  let path := store.Basedir ++ inp.Msgid ++ ".txt"
  let w1 : World := { w with calls := w.calls ++ [Call.osCreate path] }
  if sys.osCreate then ⟨w1, [], Ret.err Step.osCreate, []⟩
  else
    let w2 : World := { w1 with disk := mset w1.disk path "" }
    if sys.copy then
      closing sys ⟨{ w2 with disk := mset w2.disk path sys.torn }, [], Ret.err Step.copy, []⟩
    else
      let w3 : World :=
        { w2 with disk := mset w2.disk path (if sys.flush then sys.torn else inp.Body) }
      closing sys (postRecord cfg sys inp store hasStore w3)

/-- The handler `Post` of `msgid.go`; `dec` is the result of decoding the
request body (`none` when `Decode` returns an error). -/
def Post (cfg : Config) (sys : Sys) (dec : Option PostInput) (w : World) : Run :=
  match dec with
  | none => ⟨w, [], Ret.err Step.decode, []⟩
  | some inp =>
    -- `len(in.Body) == 0` holds for the empty string only
    if inp.Msgid = "" ∨ inp.Body = "" then
      ⟨w, [Reply.json false "Missing msgid or body"], Ret.nil, []⟩
    else
      match mget w.Stores sys.today with
      | some store =>
        if (mget store.Files inp.Msgid).isSome then
          ⟨w, [Reply.json false ("Already have article " ++ inp.Msgid)], Ret.nil, []⟩
        else postWrite cfg sys inp store true w
      | none =>
        if sys.configCreate then ⟨w, [], Ret.err Step.configCreate, []⟩
        else
          -- `store` stays the zero value: it is not read again after Create
          if (mget zeroDB.Files inp.Msgid).isSome then
            ⟨configCreate cfg sys w,
              [Reply.json false ("Already have article " ++ inp.Msgid)], Ret.nil, []⟩
          else postWrite cfg sys inp zeroDB false (configCreate cfg sys w)

/-- The local variable `store` of `Post` once line 40 ran: the partition of
today, or the zero value when there is none. -/
def storeVar (sys : Sys) (w : World) : DB := (mget w.Stores sys.today).getD zeroDB

/-- The state once lines 40-45 of `Post` ran without error: as before when the
partition of today exists, after `config.Create` when it does not. -/
def prepared (cfg : Config) (sys : Sys) (w : World) : World :=
  match mget w.Stores sys.today with
  | some _ => w
  | none => configCreate cfg sys w

/-- The partition `config.Stores[today]` once lines 40-45 of `Post` ran. -/
def todayDB (cfg : Config) (sys : Sys) (w : World) : DB :=
  (mget w.Stores sys.today).getD ⟨cfg.dirOf sys.today, sys.nowTick, []⟩

/-! ## Get -/

/-- The loop of lines 126-132 over the keys in the order given: the first
partition whose index has `msgid`; `none` when the loop ends with
`ok == false`. -/
def resolve (stores : GoMap DB) (msgid : String) : List String → Option (String × DB)
  | [] => none
  | date :: rest =>
    match mget stores date with
    | some store =>
      if (mget store.Files msgid).isSome then some (date, store)
      else resolve stores msgid rest
    | none => resolve stores msgid rest

/-- The keys of `config.Stores` in the order `range` visits them: those
`sys.order` names come first, every key of the map follows, so that no key is
left out (a key met a second time changes nothing: the loop stops at the first
hit). -/
def rangeOrder (sys : Sys) (stores : GoMap DB) : List String :=
  sys.order ++ stores.map Prod.fst

/-- Lines 156-162 of `Get`: the reader the stored bytes go through, by type. -/
def selectView (cfg : Config) (readType content : String) : String :=
  if readType = "HEAD" then cfg.headView content
  else if readType = "BODY" then cfg.bodyView content
  else content

/-- Lines 142-182 of `Get`, for the partition `date`, `store` the loop
stopped at. -/
def serve (cfg : Config) (sys : Sys) (msgid readType : String) (date : String)
    (store : DB) (w : World) : Run :=
  let path := store.Basedir ++ msgid ++ ".txt"
  let said : List String := if cfg.Verbose then ["Read " ++ path] else []
  let w1 : World := { w with calls := w.calls ++ [Call.osOpen path] }
  match (if sys.osOpen then none else mget w.disk path) with
  | none => ⟨w1, [], Ret.err Step.osOpen, said⟩
  | some content =>
    let view := selectView cfg readType content
    if sys.transmit then
      closing sys ⟨w1, [Reply.plain sys.torn], Ret.err Step.transmit, said⟩
    else
      -- s, ok := config.Stats[date].Files[msgid]; s.Count++; s.Last = store.Since()
      let s : FileStat :=
        ((mget w1.Stats date).bind (fun led => mget led.Files msgid)).getD zeroStat
      let s1 : FileStat := { s with Count := s.Count + 1, Last := store.Since sys.clock }
      match mget w1.Stats date with
      | none => closing sys ⟨w1, [Reply.plain view], Ret.panic, said⟩
      | some led =>
        let led1 : StatDB := { led with Files := mset led.Files msgid s1 }
        let w2 : World :=
          { w1 with
            Stats := mset w1.Stats date led1
            calls := w1.calls ++ [Call.saveStats store.Basedir led1] }
        closing sys ⟨w2, [Reply.plain view], Ret.nil, said ++ statsWarning sys⟩

/-- The text of the not-found rejection. -/
def notFoundText (msgid : String) : String := "Article not found msgid=" ++ msgid

/-- Lines 118-182 of `Get`: what runs once both parameters passed validation. -/
def lookupAndServe (cfg : Config) (sys : Sys) (msgid readType : String)
    (w : World) : Run :=
  match resolve w.Stores msgid (rangeOrder sys w.Stores) with
  | none =>
    ⟨w, [Reply.json false (notFoundText msgid)], Ret.nil, ["WARN: " ++ notFoundText msgid]⟩
  | some (date, store) => serve cfg sys msgid readType date store w

/-- The handler `Get` of `msgid.go`; `msgid` and `readType` are the query
parameters, empty when missing. -/
def Get (cfg : Config) (sys : Sys) (msgid readType : String) (w : World) : Run :=
  if msgid = "" then ⟨w, [Reply.json false "msgid not given"], Ret.nil, []⟩
  else if readType = "" then ⟨w, [Reply.json false "type not given"], Ret.nil, []⟩
  else if readType ≠ "HEAD" ∧ readType ≠ "ARTICLE" ∧ readType ≠ "BODY" then
    ⟨w, [Reply.json false "Type invalid value, valid=[HEAD, ARTICLE, BODY]"], Ret.nil, []⟩
  else lookupAndServe cfg sys msgid readType w

/-! ## Msgid -/

/-- An HTTP request as the handlers read it. -/
structure Request where
  Method : String
  msgid : String
  readType : String
  body : Option PostInput

/-- The dispatcher `Msgid` of `msgid.go`: a returned error is printed and
answered with the reply "Processing error". -/
def Msgid (cfg : Config) (sys : Sys) (r : Request) (w : World) : Run :=
  let run : Run :=
    if r.Method = "GET" then Get cfg sys r.msgid r.readType w
    else if r.Method = "POST" then Post cfg sys r.body w
    else ⟨w, [Reply.json false ("Unsupported HTTP Method=" ++ r.Method)], Ret.nil, []⟩
  match run.ret with
  | Ret.err _ =>
    { run with
      out := run.out ++ [Reply.json false "Processing error"]
      log := run.log ++ ["ERR: " ++ sys.errText] }
  | _ => run

/-! ## Sequences of requests and properties of the state -/

/-- A `Get` that transmitted an article and returned nil. -/
def Run.served (r : Run) : Bool :=
  match r.ret, r.out with
  | Ret.nil, [Reply.plain _] => true
  | _, _ => false

/-- A run of `Get` requests for one identifier, one after the other, each with
its own surroundings and type; `none` as soon as one of them is not served. -/
def reads (cfg : Config) (msgid : String) : List (Sys × String) → World → Option World
  | [], w => some w
  | (sys, readType) :: rest, w =>
    let r := Get cfg sys msgid readType w
    if r.served then reads cfg msgid rest r.world else none

/-- The index-to-file invariant of a Volume: every identifier in the index of
every partition has a file at `Basedir + identifier + ".txt"`. -/
def IndexHasFiles (w : World) : Prop :=
  ∀ p ∈ w.Stores, ∀ q ∈ p.2.Files, (mget w.disk (p.2.Basedir ++ q.1 ++ ".txt")).isSome

instance (w : World) : Decidable (IndexHasFiles w) := by
  unfold IndexHasFiles; infer_instance

/-- Every partition of the registry has its ledger in `config.Stats`. -/
def Ledgered (w : World) : Prop :=
  ∀ p ∈ w.Stores, (mget w.Stats p.1).isSome

instance (w : World) : Decidable (Ledgered w) := by
  unfold Ledgered; infer_instance

/-- No partition of the registry holds `msgid` in its index. -/
def NotHeld (w : World) (msgid : String) : Prop :=
  ∀ p ∈ w.Stores, mget p.2.Files msgid = none

instance (w : World) (msgid : String) : Decidable (NotHeld w msgid) := by
  unfold NotHeld; infer_instance

/-- The partition `today` is the only one whose index holds `msgid`. -/
def SoleHolder (stores : GoMap DB) (msgid today : String) : Prop :=
  ∀ d st, mget stores d = some st → (mget st.Files msgid).isSome = true → d = today

/-- Every ledger entry belongs to an identifier of the index of its partition. -/
def LedgerWithinIndex (w : World) : Prop :=
  ∀ d led msgid, mget w.Stats d = some led → (mget led.Files msgid).isSome = true →
    ∃ st, mget w.Stores d = some st ∧ (mget st.Files msgid).isSome = true

/-- The states the handlers build: the empty registry, and what any `Post` or
`Get`, with any surroundings and whatever its outcome, leaves behind. -/
inductive Reachable (cfg : Config) : World → Prop
  | empty : Reachable cfg ⟨[], [], [], []⟩
  | post (sys : Sys) (dec : Option PostInput) (w : World) :
      Reachable cfg w → Reachable cfg (Post cfg sys dec w).world
  | get (sys : Sys) (msgid readType : String) (w : World) :
      Reachable cfg w → Reachable cfg (Get cfg sys msgid readType w).world

/-! ## Concrete inputs -/

/-- A configuration: partitions live under `/spool/<day>/`; the two readers
are left as the identity. -/
def cfg0 : Config := ⟨false, fun d => "/spool/" ++ d ++ "/", fun s => s, fun s => s⟩

/-- Surroundings in which every call succeeds, on 2024-01-01. -/
def calm : Sys :=
  { configCreate := false, osCreate := false, copy := false, flush := false,
    close := false, save := false, saveStats := false, osOpen := false,
    transmit := false, torn := "", errText := "no space left on device",
    today := "2024-01-01", nowTick := 100, clock := 101, order := [] }

/-- The empty registry: no partition, no file. -/
def emptyWorld : World := ⟨[], [], [], []⟩

/-- A registry with the partition of 2024-01-01 and its ledger, both empty. -/
def dayWorld : World :=
  ⟨[("2024-01-01", ⟨"/spool/2024-01-01/", 0, []⟩)], [("2024-01-01", ⟨[]⟩)], [], []⟩

/-- The article used in the examples. -/
def art : PostInput := ⟨"a", "x", []⟩

/-- A second article under the same identifier. -/
def art2 : PostInput := ⟨"a", "y", []⟩

/-- As `calm`, but `config.SaveStats` fails. -/
def statsDown : Sys := { calm with saveStats := true }

/-- As `calm`, but `config.Save` fails. -/
def saveDown : Sys := { calm with save := true }

/-- As `calm`, but `w.Flush()` fails and nothing reaches the file. -/
def flushDown : Sys := { calm with flush := true }

/-- As `calm`, a little later on the same day. -/
def later : Sys := { calm with nowTick := 200, clock := 205 }

/-- As `calm`, one day later. -/
def nextDay : Sys := { calm with today := "2024-01-02", nowTick := 86500, clock := 86501 }

/-- An article under the identifier `b`. -/
def artB : PostInput := ⟨"b", "y", []⟩

/-- An article under the identifier `c`. -/
def artC : PostInput := ⟨"c", "z", []⟩

/-- As `nextDay`, with `range` meeting the partition of 2024-01-01 first. -/
def dayOneFirst : Sys := { nextDay with order := ["2024-01-01"] }

/-- As `nextDay`, with `range` meeting the partition of 2024-01-02 first. -/
def dayTwoFirst : Sys := { nextDay with order := ["2024-01-02"] }

/-- The registry after one request: `b` posted on 2024-01-01, which created the
partition of that day. -/
def openedDay : World := (Post cfg0 calm (some artB) emptyWorld).world

/-- The registry after four accepted requests, from the empty one: on
2024-01-01 `b` and then `a` are posted, on 2024-01-02 `c` and then `a` again;
both partitions hold `a`, each with its file under its own `Basedir`. -/
def twiceHeld : World :=
  (Post cfg0 nextDay (some art2)
    (Post cfg0 nextDay (some artC)
      (Post cfg0 calm (some art) openedDay).world).world).world

/-! ## Go maps: reading after writing -/

theorem mget_mem {V : Type} (m : GoMap V) (k : String) (v : V)
    (h : mget m k = some v) : (k, v) ∈ m := by
  induction m with
  | nil => simp [mget] at h
  | cons p rest ih =>
    obtain ⟨k0, v0⟩ := p
    by_cases hk : k0 = k
    · simp [mget, hk] at h
      simp [hk, h]
    · simp [mget, hk] at h
      exact List.mem_cons_of_mem _ (ih h)

theorem mget_mset_same {V : Type} (m : GoMap V) (k : String) (v : V) :
    mget (mset m k v) k = some v := by
  induction m with
  | nil => simp [mset, mget]
  | cons p rest ih =>
    obtain ⟨k0, v0⟩ := p
    by_cases hk : k0 = k
    · simp [mset, mget, hk]
    · simp [mset, mget, hk, ih]

theorem mget_mset_ne {V : Type} (m : GoMap V) (k k1 : String) (v : V) (hne : k1 ≠ k) :
    mget (mset m k v) k1 = mget m k1 := by
  induction m with
  | nil =>
    have : ¬ k = k1 := fun h => hne h.symm
    simp [mset, mget, this]
  | cons p rest ih =>
    obtain ⟨k0, v0⟩ := p
    by_cases hk : k0 = k
    · have : ¬ k = k1 := fun h => hne h.symm
      simp [mset, mget, hk, this]
    · by_cases hk1 : k0 = k1
      · subst hk1
        simp [mset, mget, hk]
      · simp [mset, mget, hk, hk1, ih]

/-! ## The loop of Get -/

theorem resolve_sound (stores : GoMap DB) (msgid : String) (order : List String)
    (date : String) (store : DB) (h : resolve stores msgid order = some (date, store)) :
    mget stores date = some store ∧ (mget store.Files msgid).isSome = true := by
  induction order with
  | nil => simp [resolve] at h
  | cons d rest ih =>
    unfold resolve at h
    cases hd : mget stores d with
    | none => rw [hd] at h; exact ih h
    | some st =>
      rw [hd] at h
      by_cases hf : (mget st.Files msgid).isSome = true
      · simp [hf] at h
        obtain ⟨rfl, rfl⟩ := h
        exact ⟨hd, hf⟩
      · simp [hf] at h
        exact ih h

theorem resolve_none (stores : GoMap DB) (msgid : String) (order : List String)
    (h : ∀ p ∈ stores, mget p.2.Files msgid = none) :
    resolve stores msgid order = none := by
  induction order with
  | nil => rfl
  | cons d rest ih =>
    unfold resolve
    cases hd : mget stores d with
    | none => exact ih
    | some st =>
      have := h (d, st) (mget_mem stores d st hd)
      simp at this
      simp [this, ih]

theorem resolve_hit (stores : GoMap DB) (msgid : String) (order : List String)
    (date : String) (store : DB) (hd : mget stores date = some store)
    (hf : (mget store.Files msgid).isSome = true) (hmem : date ∈ order) :
    ∃ d st, resolve stores msgid order = some (d, st) := by
  induction order with
  | nil => simp at hmem
  | cons d rest ih =>
    unfold resolve
    cases hd1 : mget stores d with
    | none =>
      have hne : date ≠ d := fun e => by rw [e, hd1] at hd; cases hd
      have : date ∈ rest := by
        rcases List.mem_cons.mp hmem with e | e
        · exact absurd e hne
        · exact e
      simpa using ih this
    | some st =>
      by_cases hf1 : (mget st.Files msgid).isSome = true
      · exact ⟨d, st, by simp [hf1]⟩
      · have hne : date ≠ d := fun e => by
          rw [e, hd1] at hd
          cases hd
          exact hf1 hf
        have : date ∈ rest := by
          rcases List.mem_cons.mp hmem with e | e
          · exact absurd e hne
          · exact e
        simpa [hf1] using ih this

theorem key_mem_of_mget {V : Type} (m : GoMap V) (k : String) (v : V)
    (h : mget m k = some v) : k ∈ m.map Prod.fst :=
  List.mem_map.mpr ⟨(k, v), mget_mem m k v h, rfl⟩

/-! ## What the handlers can reply -/

theorem closing_out (sys : Sys) (r : Run) : (closing sys r).out = r.out := by
  unfold closing; split <;> rfl

theorem closing_world (sys : Sys) (r : Run) : (closing sys r).world = r.world := by
  unfold closing; split <;> rfl

theorem closing_calm (sys : Sys) (r : Run) (h : sys.close = false) : closing sys r = r := by
  simp [closing, h]

theorem postRecord_out (cfg : Config) (sys : Sys) (inp : PostInput) (store : DB)
    (hasStore : Bool) (w : World) :
    (postRecord cfg sys inp store hasStore w).out = [] ∨
      (postRecord cfg sys inp store hasStore w).out = [Reply.json true "Saved"] := by
  unfold postRecord
  cases mget w.Stores sys.today with
  | none => exact Or.inl rfl
  | some cur =>
    by_cases hs : sys.save = true
    · simp [hs]
    · cases hl : mget w.Stats sys.today <;> simp [hs, hl]

theorem postWrite_out (cfg : Config) (sys : Sys) (inp : PostInput) (store : DB)
    (hasStore : Bool) (w : World) :
    (postWrite cfg sys inp store hasStore w).out = [] ∨
      (postWrite cfg sys inp store hasStore w).out = [Reply.json true "Saved"] := by
  unfold postWrite
  by_cases h1 : sys.osCreate = true
  · simp [h1]
  · by_cases h2 : sys.copy = true
    · simp [h1, h2, closing_out]
    · simp only [h1, h2, Bool.false_eq_true, if_false, closing_out]
      exact postRecord_out _ _ _ _ _ _

theorem serve_out (cfg : Config) (sys : Sys) (msgid readType date : String)
    (store : DB) (w : World) :
    (serve cfg sys msgid readType date store w).out = [] ∨
      ∃ b, (serve cfg sys msgid readType date store w).out = [Reply.plain b] := by
  unfold serve
  by_cases h1 : sys.osOpen = true
  · simp [h1]
  · cases hf : mget w.disk (store.Basedir ++ msgid ++ ".txt") with
    | none => simp [h1, hf]
    | some content =>
      by_cases h2 : sys.transmit = true
      · simp [h1, hf, h2, closing_out]
      · cases hl : mget w.Stats date <;> simp [h1, hf, h2, hl, closing_out]

theorem serve_no_json (cfg : Config) (sys : Sys) (msgid readType date : String)
    (store : DB) (w : World) (b : Bool) (t : String) :
    Reply.json b t ∉ (serve cfg sys msgid readType date store w).out := by
  rcases serve_out cfg sys msgid readType date store w with h | ⟨c, h⟩ <;> simp [h]

theorem already_ne_missing (x : String) :
    "Already have article " ++ x ≠ "Missing msgid or body" := by
  intro h
  have := congrArg String.data h
  simp at this

theorem notFound_ne_validation (x : String) :
    notFoundText x ≠ "msgid not given" ∧ notFoundText x ≠ "type not given" ∧
      notFoundText x ≠ "Type invalid value, valid=[HEAD, ARTICLE, BODY]" := by
  refine ⟨?_, ?_, ?_⟩ <;>
  · intro h
    have := congrArg String.data h
    simp [notFoundText] at this

theorem serve_opens (cfg : Config) (sys : Sys) (msgid readType date : String)
    (store : DB) (w : World) :
    Call.osOpen (store.Basedir ++ msgid ++ ".txt") ∈
      (serve cfg sys msgid readType date store w).world.calls := by
  unfold serve
  by_cases h1 : sys.osOpen = true
  · simp [h1]
  · cases hf : mget w.disk (store.Basedir ++ msgid ++ ".txt") with
    | none => simp [h1, hf]
    | some content =>
      by_cases h2 : sys.transmit = true
      · simp [h1, hf, h2, closing_world]
      · cases hl : mget w.Stats date <;> simp [h1, hf, h2, hl, closing_world]

theorem serve_stats_other (cfg : Config) (sys : Sys) (msgid readType date : String)
    (store : DB) (w : World) (d : String) (hd : d ≠ date) :
    mget (serve cfg sys msgid readType date store w).world.Stats d = mget w.Stats d := by
  unfold serve
  by_cases h1 : sys.osOpen = true
  · simp [h1]
  · cases hf : mget w.disk (store.Basedir ++ msgid ++ ".txt") with
    | none => simp [h1, hf]
    | some content =>
      by_cases h2 : sys.transmit = true
      · simp [h1, hf, h2, closing_world]
      · cases hl : mget w.Stats date with
        | none => simp [h1, hf, h2, hl, closing_world]
        | some led => simp [h1, hf, h2, hl, closing_world, mget_mset_ne _ _ _ _ hd]

theorem serve_stores (cfg : Config) (sys : Sys) (msgid readType date : String)
    (store : DB) (w : World) :
    (serve cfg sys msgid readType date store w).world.Stores = w.Stores := by
  unfold serve
  by_cases h1 : sys.osOpen = true
  · simp [h1]
  · cases hf : mget w.disk (store.Basedir ++ msgid ++ ".txt") with
    | none => simp [h1, hf]
    | some content =>
      by_cases h2 : sys.transmit = true
      · simp [h1, hf, h2, closing_world]
      · cases hl : mget w.Stats date <;> simp [h1, hf, h2, hl, closing_world]

theorem Get_valid (cfg : Config) (sys : Sys) (msgid readType : String) (w : World)
    (hid : msgid ≠ "")
    (hrt : readType = "HEAD" ∨ readType = "ARTICLE" ∨ readType = "BODY") :
    Get cfg sys msgid readType w = lookupAndServe cfg sys msgid readType w := by
  have hne : readType ≠ "" := by
    rcases hrt with h | h | h <;> rw [h] <;> decide
  have hval : ¬ (readType ≠ "HEAD" ∧ readType ≠ "ARTICLE" ∧ readType ≠ "BODY") := by
    rintro ⟨a, b, c⟩
    rcases hrt with h | h | h
    · exact a h
    · exact b h
    · exact c h
  unfold Get
  rw [if_neg hid, if_neg hne, if_neg hval]

/-! ## The runs in which the storage calls succeed -/

theorem postWrite_eq (cfg : Config) (sys : Sys) (inp : PostInput) (store : DB)
    (hasStore : Bool) (w : World) (cur : DB) (led : StatDB)
    (h1 : sys.osCreate = false) (h2 : sys.copy = false) (h3 : sys.save = false)
    (hs : mget w.Stores sys.today = some cur) (hl : mget w.Stats sys.today = some led) :
    postWrite cfg sys inp store hasStore w =
      closing sys
        ⟨{ Stores := mset w.Stores sys.today
              { cur with Files := mset cur.Files inp.Msgid ⟨inp.Meta⟩ }
           Stats := mset w.Stats sys.today
              ⟨mset led.Files inp.Msgid
                { (mget led.Files inp.Msgid).getD zeroStat with
                  Age := store.Since sys.clock }⟩
           disk := mset (mset w.disk (store.Basedir ++ inp.Msgid ++ ".txt") "")
              (store.Basedir ++ inp.Msgid ++ ".txt")
              (if sys.flush then sys.torn else inp.Body)
           calls := w.calls ++ [Call.osCreate (store.Basedir ++ inp.Msgid ++ ".txt")] ++
              [Call.save (if hasStore then
                  { store with Files := mset store.Files inp.Msgid ⟨inp.Meta⟩ }
                else store)] ++
              [Call.saveStats store.Basedir
                ⟨mset led.Files inp.Msgid
                  { (mget led.Files inp.Msgid).getD zeroStat with
                    Age := store.Since sys.clock }⟩] },
          [Reply.json true "Saved"], Ret.nil,
          statsWarning sys ++ (if cfg.Verbose then ["Saved " ++ inp.Msgid] else [])⟩ := by
  unfold postWrite postRecord
  simp only [h1, h2, h3, hs, hl, Bool.false_eq_true, if_false, Option.bind_some]
  cases hasStore <;> simp [DB.Since]

theorem postWrite_save_fault (cfg : Config) (sys : Sys) (inp : PostInput) (store : DB)
    (hasStore : Bool) (w : World) (cur : DB)
    (h1 : sys.osCreate = false) (h2 : sys.copy = false) (h3 : sys.save = true)
    (hs : mget w.Stores sys.today = some cur) :
    postWrite cfg sys inp store hasStore w =
      closing sys
        ⟨{ Stores := mset w.Stores sys.today
              { cur with Files := mset cur.Files inp.Msgid ⟨inp.Meta⟩ }
           Stats := w.Stats
           disk := mset (mset w.disk (store.Basedir ++ inp.Msgid ++ ".txt") "")
              (store.Basedir ++ inp.Msgid ++ ".txt")
              (if sys.flush then sys.torn else inp.Body)
           calls := w.calls ++ [Call.osCreate (store.Basedir ++ inp.Msgid ++ ".txt")] ++
              [Call.save (if hasStore then
                  { store with Files := mset store.Files inp.Msgid ⟨inp.Meta⟩ }
                else store)] },
          [], Ret.err Step.save, []⟩ := by
  unfold postWrite postRecord
  simp only [h1, h2, h3, hs, Bool.false_eq_true, if_false, if_true]

theorem serve_eq (cfg : Config) (sys : Sys) (msgid readType date : String)
    (store : DB) (w : World) (content : String) (led : StatDB)
    (h1 : sys.osOpen = false) (h2 : sys.transmit = false)
    (hf : mget w.disk (store.Basedir ++ msgid ++ ".txt") = some content)
    (hl : mget w.Stats date = some led) :
    serve cfg sys msgid readType date store w =
      closing sys
        ⟨{ w with
           Stats := mset w.Stats date
              ⟨mset led.Files msgid
                { (mget led.Files msgid).getD zeroStat with
                  Count := ((mget led.Files msgid).getD zeroStat).Count + 1
                  Last := store.Since sys.clock }⟩
           calls := w.calls ++ [Call.osOpen (store.Basedir ++ msgid ++ ".txt")] ++
              [Call.saveStats store.Basedir
                ⟨mset led.Files msgid
                  { (mget led.Files msgid).getD zeroStat with
                    Count := ((mget led.Files msgid).getD zeroStat).Count + 1
                    Last := store.Since sys.clock }⟩] },
          [Reply.plain (selectView cfg readType content)], Ret.nil,
          (if cfg.Verbose then ["Read " ++ (store.Basedir ++ msgid ++ ".txt")] else []) ++
            statsWarning sys⟩ := by
  unfold serve
  simp only [h1, h2, hf, hl, Bool.false_eq_true, if_false]
  rfl

theorem Post_eq (cfg : Config) (sys : Sys) (inp : PostInput) (w : World)
    (h1 : inp.Msgid ≠ "") (h2 : inp.Body ≠ "")
    (hdup : ∀ store, mget w.Stores sys.today = some store → mget store.Files inp.Msgid = none)
    (hcreate : mget w.Stores sys.today = none → sys.configCreate = false) :
    Post cfg sys (some inp) w =
      postWrite cfg sys inp (storeVar sys w) (mget w.Stores sys.today).isSome
        (prepared cfg sys w) := by
  have hv : ¬ (inp.Msgid = "" ∨ inp.Body = "") := by
    rintro (h | h)
    · exact h1 h
    · exact h2 h
  unfold Post storeVar prepared
  simp only [if_neg hv]
  cases hs : mget w.Stores sys.today with
  | some store => simp [hdup store hs]
  | none =>
    have hz : (mget zeroDB.Files inp.Msgid).isSome = false := rfl
    simp [hcreate hs, hz]

theorem prepared_today (cfg : Config) (sys : Sys) (w : World) :
    mget (prepared cfg sys w).Stores sys.today = some (todayDB cfg sys w) := by
  unfold prepared todayDB
  cases hs : mget w.Stores sys.today with
  | some store => simp [hs]
  | none => simp [configCreate, mget_mset_same]

theorem prepared_ledger (cfg : Config) (sys : Sys) (w : World) (hw : Ledgered w) :
    ∃ led, mget (prepared cfg sys w).Stats sys.today = some led ∧
      (mget w.Stores sys.today = none → led = ⟨[]⟩) ∧
      (∀ store, mget w.Stores sys.today = some store →
        mget w.Stats sys.today = some led) := by
  unfold prepared
  cases hs : mget w.Stores sys.today with
  | some store =>
    have := hw _ (mget_mem _ _ _ hs)
    obtain ⟨led, hl⟩ := Option.isSome_iff_exists.mp this
    exact ⟨led, hl, by simp, fun _ _ => hl⟩
  | none => exact ⟨⟨[]⟩, by simp [configCreate, mget_mset_same], fun _ => rfl, by simp⟩

theorem prepared_stores_other (cfg : Config) (sys : Sys) (w : World) (d : String)
    (hd : d ≠ sys.today) : mget (prepared cfg sys w).Stores d = mget w.Stores d := by
  unfold prepared
  cases hs : mget w.Stores sys.today with
  | some store => rfl
  | none => simp [configCreate, mget_mset_ne _ _ _ _ hd]

theorem prepared_stats_other (cfg : Config) (sys : Sys) (w : World) (d : String)
    (hd : d ≠ sys.today) : mget (prepared cfg sys w).Stats d = mget w.Stats d := by
  unfold prepared
  cases hs : mget w.Stores sys.today with
  | some store => rfl
  | none => simp [configCreate, mget_mset_ne _ _ _ _ hd]

theorem prepared_disk (cfg : Config) (sys : Sys) (w : World) :
    (prepared cfg sys w).disk = w.disk := by
  unfold prepared
  cases hs : mget w.Stores sys.today <;> rfl

theorem todayDB_lacks (cfg : Config) (sys : Sys) (w : World) (msgid : String)
    (hdup : ∀ store, mget w.Stores sys.today = some store → mget store.Files msgid = none) :
    mget (todayDB cfg sys w).Files msgid = none := by
  unfold todayDB
  cases hs : mget w.Stores sys.today with
  | some store => simpa using hdup store hs
  | none => rfl

/-! ## A failing `config.SaveStats` only prints -/

theorem closing_flag (sys : Sys) (b : Bool) (r : Run) :
    closing { sys with saveStats := b } r = closing sys r := rfl

theorem postRecord_flag (cfg : Config) (sys : Sys) (inp : PostInput) (store : DB)
    (hasStore : Bool) (w : World) (b : Bool) :
    (postRecord cfg { sys with saveStats := b } inp store hasStore w).world =
        (postRecord cfg sys inp store hasStore w).world ∧
    (postRecord cfg { sys with saveStats := b } inp store hasStore w).out =
        (postRecord cfg sys inp store hasStore w).out ∧
    (postRecord cfg { sys with saveStats := b } inp store hasStore w).ret =
        (postRecord cfg sys inp store hasStore w).ret := by
  unfold postRecord
  dsimp only
  cases mget w.Stores sys.today with
  | none => simp
  | some cur =>
    by_cases hs : sys.save = true
    · simp [hs]
    · cases hl : mget w.Stats sys.today <;> simp [hs, hl]

theorem closing_fields (sys : Sys) (r1 r2 : Run)
    (h : r1.world = r2.world ∧ r1.out = r2.out ∧ r1.ret = r2.ret) :
    (closing sys r1).world = (closing sys r2).world ∧
    (closing sys r1).out = (closing sys r2).out ∧
    (closing sys r1).ret = (closing sys r2).ret := by
  unfold closing
  split <;> simp [h.1, h.2.1, h.2.2]

theorem postWrite_flag (cfg : Config) (sys : Sys) (inp : PostInput) (store : DB)
    (hasStore : Bool) (w : World) (b : Bool) :
    (postWrite cfg { sys with saveStats := b } inp store hasStore w).world =
        (postWrite cfg sys inp store hasStore w).world ∧
    (postWrite cfg { sys with saveStats := b } inp store hasStore w).out =
        (postWrite cfg sys inp store hasStore w).out ∧
    (postWrite cfg { sys with saveStats := b } inp store hasStore w).ret =
        (postWrite cfg sys inp store hasStore w).ret := by
  unfold postWrite
  dsimp only
  by_cases h1 : sys.osCreate = true
  · simp [h1]
  · by_cases h2 : sys.copy = true
    · simp only [h1, h2, if_true, Bool.false_eq_true, if_false, closing_flag]
      exact ⟨rfl, rfl, rfl⟩
    · simp only [h1, h2, Bool.false_eq_true, if_false, closing_flag]
      exact closing_fields _ _ _ (postRecord_flag _ _ _ _ _ _ _)

theorem Post_flag (cfg : Config) (sys : Sys) (dec : Option PostInput) (w : World) (b : Bool) :
    (Post cfg { sys with saveStats := b } dec w).world = (Post cfg sys dec w).world ∧
    (Post cfg { sys with saveStats := b } dec w).out = (Post cfg sys dec w).out ∧
    (Post cfg { sys with saveStats := b } dec w).ret = (Post cfg sys dec w).ret := by
  unfold Post
  cases dec with
  | none => exact ⟨rfl, rfl, rfl⟩
  | some inp =>
    dsimp only
    by_cases hv : inp.Msgid = "" ∨ inp.Body = ""
    · simp only [if_pos hv]
      refine ⟨?_, ?_, ?_⟩ <;> first | rfl | trivial
    · simp only [if_neg hv]
      cases hs : mget w.Stores sys.today with
      | some store =>
        dsimp only
        by_cases hd : (mget store.Files inp.Msgid).isSome = true
        · simp only [hd, if_true]
          refine ⟨?_, ?_, ?_⟩ <;> first | rfl | trivial
        · simp only [hd, Bool.false_eq_true, if_false]
          exact postWrite_flag _ _ _ _ _ _ _
      | none =>
        dsimp only
        by_cases hc : sys.configCreate = true
        · simp only [hc, if_true]
          refine ⟨?_, ?_, ?_⟩ <;> first | rfl | trivial
        · have hz : (mget zeroDB.Files inp.Msgid).isSome = false := rfl
          simp only [hc, hz, Bool.false_eq_true, if_false]
          exact postWrite_flag _ _ _ _ _ _ _

theorem serve_flag (cfg : Config) (sys : Sys) (msgid readType date : String)
    (store : DB) (w : World) (b : Bool) :
    (serve cfg { sys with saveStats := b } msgid readType date store w).world =
        (serve cfg sys msgid readType date store w).world ∧
    (serve cfg { sys with saveStats := b } msgid readType date store w).out =
        (serve cfg sys msgid readType date store w).out ∧
    (serve cfg { sys with saveStats := b } msgid readType date store w).ret =
        (serve cfg sys msgid readType date store w).ret := by
  unfold serve
  dsimp only
  by_cases h1 : sys.osOpen = true
  · simp [h1]
  · cases hf : mget w.disk (store.Basedir ++ msgid ++ ".txt") with
    | none => simp [h1, hf]
    | some content =>
      by_cases h2 : sys.transmit = true
      · simp only [h1, hf, h2, Bool.false_eq_true, if_false, if_true, closing_flag]
        exact ⟨rfl, rfl, rfl⟩
      · cases hl : mget w.Stats date with
        | none =>
          simp only [h1, hf, h2, hl, Bool.false_eq_true, if_false, closing_flag]
          exact ⟨rfl, rfl, rfl⟩
        | some led =>
          simp only [h1, hf, h2, hl, Bool.false_eq_true, if_false, closing_flag]
          exact closing_fields _ _ _ ⟨rfl, rfl, rfl⟩

theorem Get_flag (cfg : Config) (sys : Sys) (msgid readType : String) (w : World) (b : Bool) :
    (Get cfg { sys with saveStats := b } msgid readType w).world =
        (Get cfg sys msgid readType w).world ∧
    (Get cfg { sys with saveStats := b } msgid readType w).out =
        (Get cfg sys msgid readType w).out ∧
    (Get cfg { sys with saveStats := b } msgid readType w).ret =
        (Get cfg sys msgid readType w).ret := by
  unfold Get
  by_cases h1 : msgid = ""
  · simp [h1]
  · by_cases h2 : readType = ""
    · simp [h1, h2]
    · by_cases h3 : readType ≠ "HEAD" ∧ readType ≠ "ARTICLE" ∧ readType ≠ "BODY"
      · simp only [if_neg h1, if_neg h2, if_pos h3]
        refine ⟨?_, ?_, ?_⟩ <;> first | rfl | trivial
      · simp only [if_neg h1, if_neg h2, if_neg h3]
        unfold lookupAndServe rangeOrder
        dsimp only
        cases hr : resolve w.Stores msgid (sys.order ++ List.map Prod.fst w.Stores) with
        | none => exact ⟨rfl, rfl, rfl⟩
        | some hit =>
          obtain ⟨date, store⟩ := hit
          exact serve_flag _ _ _ _ _ _ _ _

theorem storeVar_lacks (sys : Sys) (w : World) (msgid : String)
    (h : mget (storeVar sys w).Files msgid = none) :
    ∀ store, mget w.Stores sys.today = some store → mget store.Files msgid = none := by
  intro store hs
  simpa [storeVar, hs] using h

theorem storeVar_of_notHeld (sys : Sys) (w : World) (msgid : String)
    (h : NotHeld w msgid) : mget (storeVar sys w).Files msgid = none := by
  unfold storeVar
  cases hs : mget w.Stores sys.today with
  | none => rfl
  | some store => exact h _ (mget_mem _ _ _ hs)

theorem Post_duplicate (cfg : Config) (sys : Sys) (inp : PostInput) (w : World)
    (store : DB) (h1 : inp.Msgid ≠ "") (h2 : inp.Body ≠ "")
    (hs : mget w.Stores sys.today = some store)
    (hf : (mget store.Files inp.Msgid).isSome = true) :
    Post cfg sys (some inp) w =
      ⟨w, [Reply.json false ("Already have article " ++ inp.Msgid)], Ret.nil, []⟩ := by
  have hv : ¬ (inp.Msgid = "" ∨ inp.Body = "") := by
    rintro (h | h)
    · exact h1 h
    · exact h2 h
  unfold Post
  simp only [if_neg hv, hs, hf, if_true]

/-! ## What an accepted Post and a served Get did -/

theorem Post_saved (cfg : Config) (sys : Sys) (inp : PostInput) (w : World)
    (hdup : mget (storeVar sys w).Files inp.Msgid = none)
    (h : (Post cfg sys (some inp) w).out = [Reply.json true "Saved"]) :
    ∃ led, mget (prepared cfg sys w).Stats sys.today = some led ∧
      (Post cfg sys (some inp) w).world.Stores =
        mset (prepared cfg sys w).Stores sys.today
          { todayDB cfg sys w with
            Files := mset (todayDB cfg sys w).Files inp.Msgid ⟨inp.Meta⟩ } ∧
      (Post cfg sys (some inp) w).world.Stats =
        mset (prepared cfg sys w).Stats sys.today
          ⟨mset led.Files inp.Msgid
            { (mget led.Files inp.Msgid).getD zeroStat with
              Age := (storeVar sys w).Since sys.clock }⟩ := by
  by_cases hv : inp.Msgid = "" ∨ inp.Body = ""
  · simp [Post, hv] at h
  have h1 : inp.Msgid ≠ "" := fun e => hv (Or.inl e)
  have h2 : inp.Body ≠ "" := fun e => hv (Or.inr e)
  have hcreate : mget w.Stores sys.today = none → sys.configCreate = false := by
    intro hs
    by_contra hc
    have hc1 : sys.configCreate = true := by simpa using hc
    simp [Post, hv, hs, hc1] at h
  rw [Post_eq cfg sys inp w h1 h2 (storeVar_lacks sys w inp.Msgid hdup) hcreate] at h ⊢
  by_cases hoc : sys.osCreate = true
  · simp [postWrite, hoc] at h
  by_cases hcp : sys.copy = true
  · simp [postWrite, hoc, hcp, closing_out] at h
  by_cases hsv : sys.save = true
  · simp [postWrite, postRecord, hoc, hcp, hsv, closing_out, prepared_today] at h
  cases hl : mget (prepared cfg sys w).Stats sys.today with
  | none => simp [postWrite, postRecord, hoc, hcp, hsv, closing_out, prepared_today, hl] at h
  | some led =>
    refine ⟨led, rfl, ?_⟩
    rw [postWrite_eq cfg sys inp _ _ _ _ led (by simpa using hoc) (by simpa using hcp)
      (by simpa using hsv) (prepared_today cfg sys w) hl, closing_world]
    exact ⟨rfl, rfl⟩

theorem Post_sole_holder (cfg : Config) (sys : Sys) (inp : PostInput) (w : World)
    (hnot : NotHeld w inp.Msgid)
    (h : (Post cfg sys (some inp) w).out = [Reply.json true "Saved"]) :
    SoleHolder (Post cfg sys (some inp) w).world.Stores inp.Msgid sys.today := by
  obtain ⟨led, -, hS, -⟩ :=
    Post_saved cfg sys inp w (storeVar_of_notHeld sys w inp.Msgid hnot) h
  intro d st hd hf
  by_contra hne
  rw [hS, mget_mset_ne _ _ _ _ hne, prepared_stores_other cfg sys w d hne] at hd
  have := hnot _ (mget_mem _ _ _ hd)
  simp [this] at hf

theorem resolve_sole (stores : GoMap DB) (msgid today : String) (order : List String)
    (st : DB) (hs : mget stores today = some st)
    (hf : (mget st.Files msgid).isSome = true) (hmem : today ∈ order)
    (huniq : SoleHolder stores msgid today) :
    resolve stores msgid order = some (today, st) := by
  obtain ⟨d, st1, hr⟩ := resolve_hit stores msgid order today st hs hf hmem
  obtain ⟨hd, hf1⟩ := resolve_sound stores msgid order d st1 hr
  have hdt : d = today := huniq d st1 hd hf1
  subst hdt
  rw [hs] at hd
  cases hd
  exact hr

theorem served_spec (r : Run) (h : r.served = true) :
    r.ret = Ret.nil ∧ ∃ b, r.out = [Reply.plain b] := by
  obtain ⟨world, out, ret, log⟩ := r
  cases ret with
  | nil =>
    match out, h with
    | [Reply.plain b], _ => exact ⟨rfl, b, rfl⟩
  | err s => simp [Run.served] at h
  | panic => simp [Run.served] at h

theorem Get_served_step (cfg : Config) (sys : Sys) (msgid readType : String) (w : World)
    (today : String) (st : DB) (led : StatDB)
    (hs : mget w.Stores today = some st) (huniq : SoleHolder w.Stores msgid today)
    (hl : mget w.Stats today = some led)
    (h : (Get cfg sys msgid readType w).served = true) :
    (Get cfg sys msgid readType w).world.Stores = w.Stores ∧
    (Get cfg sys msgid readType w).world.Stats =
      mset w.Stats today
        ⟨mset led.Files msgid
          { (mget led.Files msgid).getD zeroStat with
            Count := ((mget led.Files msgid).getD zeroStat).Count + 1
            Last := st.Since sys.clock }⟩ := by
  obtain ⟨hret, b, hout⟩ := served_spec _ h
  by_cases h1 : msgid = ""
  · simp [Get, h1] at hout
  by_cases h2 : readType = ""
  · simp [Get, h1, h2] at hout
  by_cases h3 : readType ≠ "HEAD" ∧ readType ≠ "ARTICLE" ∧ readType ≠ "BODY"
  · simp [Get, h1, h2, h3] at hout
  have hG : Get cfg sys msgid readType w = lookupAndServe cfg sys msgid readType w := by
    unfold Get
    rw [if_neg h1, if_neg h2, if_neg h3]
  rw [hG] at hret hout ⊢
  unfold lookupAndServe at hret hout ⊢
  cases hr : resolve w.Stores msgid (rangeOrder sys w.Stores) with
  | none => simp [hr] at hout
  | some hit =>
    obtain ⟨d, st1⟩ := hit
    obtain ⟨hd, hf1⟩ := resolve_sound w.Stores msgid _ d st1 hr
    have hdt : d = today := huniq d st1 hd hf1
    subst hdt
    rw [hs] at hd
    cases hd
    simp only [hr] at hret hout ⊢
    by_cases hop : sys.osOpen = true
    · simp [serve, hop] at hout
    cases hf : mget w.disk (st.Basedir ++ msgid ++ ".txt") with
    | none => simp [serve, hop, hf] at hout
    | some content =>
      by_cases htr : sys.transmit = true
      · simp [serve, hop, hf, htr, closing] at hret
        split at hret <;> simp at hret
      · rw [serve_eq cfg sys msgid readType d st w content led (by simpa using hop)
          (by simpa using htr) hf hl, closing_world]
        exact ⟨rfl, rfl⟩

theorem reads_append (cfg : Config) (msgid : String) (a b : List (Sys × String))
    (w : World) :
    reads cfg msgid (a ++ b) w = (reads cfg msgid a w).bind (reads cfg msgid b) := by
  induction a generalizing w with
  | nil => rfl
  | cons x rest ih =>
    obtain ⟨sys, readType⟩ := x
    simp only [List.cons_append, reads]
    split
    · exact ih _
    · rfl

theorem reads_ledger (cfg : Config) (msgid today : String) (st : DB)
    (rs : List (Sys × String)) :
    ∀ (w wN : World) (led : StatDB) (s : FileStat),
      mget w.Stores today = some st → SoleHolder w.Stores msgid today →
      mget w.Stats today = some led → mget led.Files msgid = some s →
      reads cfg msgid rs w = some wN →
      wN.Stores = w.Stores ∧
      ∃ ledN sN, mget wN.Stats today = some ledN ∧ mget ledN.Files msgid = some sN ∧
        sN.Count = s.Count + rs.length ∧ sN.Age = s.Age ∧
        (∀ p, rs.getLast? = some p → sN.Last = st.Since p.1.clock) := by
  induction rs with
  | nil =>
    intro w wN led s hs _ hl hsl hr
    simp only [reads, Option.some.injEq] at hr
    subst hr
    exact ⟨rfl, led, s, hl, hsl, by simp, rfl, by simp⟩
  | cons x rest ih =>
    intro w wN led s hs huniq hl hsl hr
    obtain ⟨sys, readType⟩ := x
    simp only [reads] at hr
    by_cases hsv : (Get cfg sys msgid readType w).served = true
    · rw [if_pos hsv] at hr
      obtain ⟨hS, hT⟩ := Get_served_step cfg sys msgid readType w today st led hs huniq hl hsv
      have hs1 : mget (Get cfg sys msgid readType w).world.Stores today = some st := by
        rw [hS]; exact hs
      have hu1 : SoleHolder (Get cfg sys msgid readType w).world.Stores msgid today := by
        rw [hS]; exact huniq
      have hl1 : mget (Get cfg sys msgid readType w).world.Stats today =
          some ⟨mset led.Files msgid
            { (mget led.Files msgid).getD zeroStat with
              Count := ((mget led.Files msgid).getD zeroStat).Count + 1
              Last := st.Since sys.clock }⟩ := by
        rw [hT]; exact mget_mset_same _ _ _
      obtain ⟨hSN, ledN, sN, a1, a2, a3, a4, a5⟩ :=
        ih _ wN _ _ hs1 hu1 hl1 (mget_mset_same _ _ _) hr
      refine ⟨hSN.trans hS, ledN, sN, a1, a2, ?_, ?_, ?_⟩
      · rw [a3]
        simp only [hsl, Option.getD_some, List.length_cons]
        omega
      · rw [a4]
        simp only [hsl, Option.getD_some]
      · intro p hp
        cases rest with
        | nil =>
          simp only [List.getLast?_singleton, Option.some.injEq] at hp
          subst hp
          simp only [reads, Option.some.injEq] at hr
          subst hr
          rw [hl1] at a1
          cases a1
          rw [mget_mset_same] at a2
          cases a2
          rfl
        | cons y tail =>
          exact a5 p (by simpa [List.getLast?_cons_cons] using hp)
    · rw [if_neg hsv] at hr
      cases hr

/-! ## A Post into a partition that exists -/

theorem mem_mset {V : Type} (m : GoMap V) (k : String) (v : V) (p : String × V)
    (h : p ∈ mset m k v) : p ∈ m ∨ p = (k, v) := by
  induction m with
  | nil =>
    simp only [mset, List.mem_singleton] at h
    exact Or.inr h
  | cons p0 rest ih =>
    obtain ⟨k0, v0⟩ := p0
    by_cases hk : k0 = k
    · simp only [mset, hk, if_true, List.mem_cons] at h
      rcases h with h | h
      · exact Or.inr h
      · exact Or.inl (List.mem_cons_of_mem _ h)
    · simp only [mset, hk, if_false, List.mem_cons] at h
      rcases h with h | h
      · exact Or.inl (by rw [h]; exact List.mem_cons_self _ _)
      · rcases ih h with h1 | h1
        · exact Or.inl (List.mem_cons_of_mem _ h1)
        · exact Or.inr h1

theorem mget_mset_isSome {V : Type} (m : GoMap V) (k k1 : String) (v : V)
    (h : (mget m k1).isSome = true) : (mget (mset m k v) k1).isSome = true := by
  by_cases hk : k1 = k
  · rw [hk, mget_mset_same]; rfl
  · rw [mget_mset_ne _ _ _ _ hk]; exact h

theorem postWrite_world (cfg : Config) (sys : Sys) (inp : PostInput) (store : DB)
    (b : Bool) (w : World) (hs : mget w.Stores sys.today = some store) :
    (∀ k, (mget w.disk k).isSome = true →
      (mget (postWrite cfg sys inp store b w).world.disk k).isSome = true) ∧
    ((postWrite cfg sys inp store b w).world.Stores = w.Stores ∨
      ((postWrite cfg sys inp store b w).world.Stores =
          mset w.Stores sys.today
            { store with Files := mset store.Files inp.Msgid ⟨inp.Meta⟩ } ∧
        (mget (postWrite cfg sys inp store b w).world.disk
          (store.Basedir ++ inp.Msgid ++ ".txt")).isSome = true)) := by
  unfold postWrite
  by_cases h1 : sys.osCreate = true
  · simp [h1]
  by_cases h2 : sys.copy = true
  · simp only [h1, h2, Bool.false_eq_true, if_false, if_true, closing_world]
    exact ⟨fun k hk => mget_mset_isSome _ _ _ _ (mget_mset_isSome _ _ _ _ hk), Or.inl trivial⟩
  simp only [h1, h2, Bool.false_eq_true, if_false, closing_world]
  unfold postRecord
  simp only [hs]
  by_cases h3 : sys.save = true
  · simp only [h3, if_true]
    exact ⟨fun k hk => mget_mset_isSome _ _ _ _ (mget_mset_isSome _ _ _ _ hk),
      Or.inr ⟨trivial, by rw [mget_mset_same]; rfl⟩⟩
  cases hl : mget w.Stats sys.today with
  | none =>
    simp only [h3, Bool.false_eq_true, if_false]
    exact ⟨fun k hk => mget_mset_isSome _ _ _ _ (mget_mset_isSome _ _ _ _ hk),
      Or.inr ⟨trivial, by rw [mget_mset_same]; rfl⟩⟩
  | some led =>
    simp only [h3, Bool.false_eq_true, if_false]
    exact ⟨fun k hk => mget_mset_isSome _ _ _ _ (mget_mset_isSome _ _ _ _ hk),
      Or.inr ⟨trivial, by rw [mget_mset_same]; rfl⟩⟩

/-- The index-to-file invariant is kept by every `Post` that finds the
partition of the day in the registry, whatever its outcome: the file is
created under the `Basedir` of that partition before the index is written. -/
theorem index_kept_in_existing_partition (cfg : Config) (sys : Sys)
    (dec : Option PostInput) (w : World)
    (hs : (mget w.Stores sys.today).isSome = true) (hinv : IndexHasFiles w) :
    IndexHasFiles (Post cfg sys dec w).world := by
  obtain ⟨store, hst⟩ := Option.isSome_iff_exists.mp hs
  cases dec with
  | none => exact hinv
  | some inp =>
    unfold Post
    by_cases hv : inp.Msgid = "" ∨ inp.Body = ""
    · simp only [if_pos hv]; exact hinv
    simp only [if_neg hv, hst]
    by_cases hd : (mget store.Files inp.Msgid).isSome = true
    · simp only [hd, if_true]; exact hinv
    simp only [hd, Bool.false_eq_true, if_false]
    obtain ⟨hdisk, hstores⟩ := postWrite_world cfg sys inp store true w hst
    intro p hp q hq
    rcases hstores with hsame | ⟨hnew, hfile⟩
    · rw [hsame] at hp
      exact hdisk _ (hinv p hp q hq)
    · rw [hnew] at hp
      rcases mem_mset _ _ _ _ hp with hp1 | hp1
      · exact hdisk _ (hinv p hp1 q hq)
      · subst hp1
        rcases mem_mset _ _ _ _ hq with hq1 | hq1
        · exact hdisk _ (hinv _ (mget_mem _ _ _ hst) q hq1)
        · subst hq1
          exact hfile


/-- In a partition that exists already the round trip holds: an accepted
`Post` of an identifier no partition held, followed at once by a `Get` of type
ARTICLE, transmits exactly the body. -/
theorem round_trip_in_existing_partition (cfg : Config) (sysP sysG : Sys)
    (inp : PostInput) (w : World) (store : DB)
    (h1 : inp.Msgid ≠ "") (h2 : inp.Body ≠ "")
    (hnot : NotHeld w inp.Msgid) (hw : Ledgered w)
    (hs : mget w.Stores sysP.today = some store)
    (hoc : sysP.osCreate = false) (hcp : sysP.copy = false) (hfl : sysP.flush = false)
    (hcl : sysP.close = false) (hsv : sysP.save = false)
    (gop : sysG.osOpen = false) (gtr : sysG.transmit = false) (gcl : sysG.close = false) :
    (Post cfg sysP (some inp) w).out = [Reply.json true "Saved"] ∧
    (Post cfg sysP (some inp) w).ret = Ret.nil ∧
    (Get cfg sysG inp.Msgid "ARTICLE" (Post cfg sysP (some inp) w).world).out =
      [Reply.plain inp.Body] ∧
    (Get cfg sysG inp.Msgid "ARTICLE" (Post cfg sysP (some inp) w).world).ret = Ret.nil := by
  obtain ⟨led, hl, -, -⟩ := prepared_ledger cfg sysP w hw
  have hdup := storeVar_lacks sysP w inp.Msgid (storeVar_of_notHeld sysP w inp.Msgid hnot)
  have hP : Post cfg sysP (some inp) w = _ :=
    (Post_eq cfg sysP inp w h1 h2 hdup (by simp [hs])).trans
      ((postWrite_eq cfg sysP inp _ _ _ _ led hoc hcp hsv
        (prepared_today cfg sysP w) hl).trans (closing_calm _ _ hcl))
  have hout : (Post cfg sysP (some inp) w).out = [Reply.json true "Saved"] := by rw [hP]
  have hsole := Post_sole_holder cfg sysP inp w hnot hout
  have hst : mget (Post cfg sysP (some inp) w).world.Stores sysP.today =
      some { store with Files := mset store.Files inp.Msgid ⟨inp.Meta⟩ } := by
    rw [hP]
    simp only [todayDB, hs, Option.getD_some]
    exact mget_mset_same _ _ _
  have hres := resolve_sole (Post cfg sysP (some inp) w).world.Stores inp.Msgid sysP.today
    (rangeOrder sysG (Post cfg sysP (some inp) w).world.Stores) _ hst
    (by simp [mget_mset_same])
    (List.mem_append_right _ (key_mem_of_mget _ _ _ hst)) hsole
  have hdisk : mget (Post cfg sysP (some inp) w).world.disk
      (store.Basedir ++ inp.Msgid ++ ".txt") = some inp.Body := by
    rw [hP]
    simp only [hfl, Bool.false_eq_true, if_false, storeVar, hs, Option.getD_some]
    exact mget_mset_same _ _ _
  have hled : mget (Post cfg sysP (some inp) w).world.Stats sysP.today =
      some ⟨mset led.Files inp.Msgid
        { (mget led.Files inp.Msgid).getD zeroStat with
          Age := (storeVar sysP w).Since sysP.clock }⟩ := by
    rw [hP]
    exact mget_mset_same _ _ _
  have hG : Get cfg sysG inp.Msgid "ARTICLE" (Post cfg sysP (some inp) w).world =
      serve cfg sysG inp.Msgid "ARTICLE" sysP.today
        { store with Files := mset store.Files inp.Msgid ⟨inp.Meta⟩ }
        (Post cfg sysP (some inp) w).world := by
    rw [Get_valid cfg sysG inp.Msgid "ARTICLE" _ h1 (Or.inr (Or.inl rfl))]
    unfold lookupAndServe
    rw [hres]
  have hview : selectView cfg "ARTICLE" inp.Body = inp.Body := by
    have a : ¬ ("ARTICLE" = "HEAD") := by decide
    have b : ¬ ("ARTICLE" = "BODY") := by decide
    simp only [selectView, if_neg a, if_neg b]
  have hE := serve_eq cfg sysG inp.Msgid "ARTICLE" sysP.today
    { store with Files := mset store.Files inp.Msgid ⟨inp.Meta⟩ }
    (Post cfg sysP (some inp) w).world inp.Body _ gop gtr hdisk hled
  refine ⟨hout, by rw [hP], ?_, ?_⟩
  · rw [hG, hE, closing_calm _ _ gcl, hview]
  · rw [hG, hE, closing_calm _ _ gcl]

/-- A failing `os.Create` or `io.Copy` aborts the ingest: `Post` returns that
error, writes no reply, adds nothing to any index or ledger and calls neither
`config.Save` nor `config.SaveStats`. -/
theorem create_or_copy_failure_aborts (cfg : Config) (sys : Sys) (inp : PostInput)
    (w : World) (h1 : inp.Msgid ≠ "") (h2 : inp.Body ≠ "")
    (hdup : mget (storeVar sys w).Files inp.Msgid = none)
    (hcc : sys.configCreate = false) (hcl : sys.close = false)
    (hfail : sys.osCreate = true ∨ sys.copy = true) :
    (∃ step, (Post cfg sys (some inp) w).ret = Ret.err step) ∧
    (Post cfg sys (some inp) w).out = [] ∧
    (Post cfg sys (some inp) w).world.Stores = (prepared cfg sys w).Stores ∧
    (Post cfg sys (some inp) w).world.Stats = (prepared cfg sys w).Stats ∧
    (∀ c ∈ (Post cfg sys (some inp) w).world.calls,
      c ∈ (prepared cfg sys w).calls ∨
        c = Call.osCreate ((storeVar sys w).Basedir ++ inp.Msgid ++ ".txt")) := by
  rw [Post_eq cfg sys inp w h1 h2 (storeVar_lacks sys w inp.Msgid hdup) (fun _ => hcc)]
  unfold postWrite
  by_cases hoc : sys.osCreate = true
  · simp only [hoc, if_true]
    refine ⟨⟨_, rfl⟩, ?_, ?_, ?_, ?_⟩
    · trivial
    · trivial
    · trivial
    · intro c hc
      simpa using hc
  · have hcp : sys.copy = true := by
      rcases hfail with h | h
      · exact absurd h hoc
      · exact h
    simp only [hoc, hcp, Bool.false_eq_true, if_false, if_true, closing_calm _ _ hcl]
    refine ⟨⟨_, rfl⟩, ?_, ?_, ?_, ?_⟩
    · trivial
    · trivial
    · trivial
    · intro c hc
      simpa using hc

/-! ## Ledger entries follow index entries -/

theorem ledgerWithinIndex_of_eq (w w1 : World) (hS : w1.Stores = w.Stores)
    (hT : w1.Stats = w.Stats) (h : LedgerWithinIndex w) : LedgerWithinIndex w1 := by
  intro d led msgid hl hf
  rw [hT] at hl
  rw [hS]
  exact h d led msgid hl hf

theorem ledgerWithinIndex_index (w w1 : World) (today msgid : String) (cur : DB) (f : File)
    (hcur : mget w.Stores today = some cur)
    (hS : w1.Stores = mset w.Stores today { cur with Files := mset cur.Files msgid f })
    (hT : w1.Stats = w.Stats) (h : LedgerWithinIndex w) : LedgerWithinIndex w1 := by
  intro d led i hl hf
  rw [hT] at hl
  obtain ⟨st, hst, hfi⟩ := h d led i hl hf
  rw [hS]
  by_cases hd : d = today
  · subst hd
    rw [hcur] at hst
    cases hst
    exact ⟨_, mget_mset_same _ _ _, mget_mset_isSome _ _ _ _ hfi⟩
  · rw [mget_mset_ne _ _ _ _ hd]
    exact ⟨st, hst, hfi⟩

theorem ledgerWithinIndex_entry (w w1 : World) (date msgid : String) (store : DB)
    (led0 : StatDB) (s : FileStat)
    (hstore : mget w.Stores date = some store)
    (hheld : (mget store.Files msgid).isSome = true)
    (hS : w1.Stores = w.Stores)
    (hT : w1.Stats = mset w.Stats date ⟨mset led0.Files msgid s⟩)
    (hl0 : mget w.Stats date = some led0)
    (h : LedgerWithinIndex w) : LedgerWithinIndex w1 := by
  intro d led i hl hf
  rw [hT] at hl
  rw [hS]
  by_cases hd : d = date
  · subst hd
    rw [mget_mset_same] at hl
    cases hl
    by_cases hi : i = msgid
    · subst hi
      exact ⟨store, hstore, hheld⟩
    · rw [mget_mset_ne _ _ _ _ hi] at hf
      exact h d led0 i hl0 hf
  · rw [mget_mset_ne _ _ _ _ hd] at hl
    exact h d led i hl hf

theorem configCreate_ledgerWithinIndex (cfg : Config) (sys : Sys) (w : World)
    (h : LedgerWithinIndex w) : LedgerWithinIndex (configCreate cfg sys w) := by
  intro d led i hl hf
  by_cases hd : d = sys.today
  · subst hd
    simp only [configCreate, mget_mset_same, Option.some.injEq] at hl
    subst hl
    simp [mget] at hf
  · simp only [configCreate, mget_mset_ne _ _ _ _ hd] at hl ⊢
    exact h d led i hl hf

theorem postRecord_ledgerWithinIndex (cfg : Config) (sys : Sys) (inp : PostInput)
    (store : DB) (b : Bool) (w : World) (h : LedgerWithinIndex w) :
    LedgerWithinIndex (postRecord cfg sys inp store b w).world := by
  unfold postRecord
  cases hs : mget w.Stores sys.today with
  | none => exact h
  | some cur =>
    have hidx : LedgerWithinIndex
        { w with Stores := mset w.Stores sys.today
                   { cur with Files := mset cur.Files inp.Msgid ⟨inp.Meta⟩ } } :=
      ledgerWithinIndex_index w _ sys.today inp.Msgid cur ⟨inp.Meta⟩ hs rfl rfl h
    by_cases hsv : sys.save = true
    · simp only [hsv, if_true]
      exact ledgerWithinIndex_of_eq _ _ rfl rfl hidx
    · cases hl : mget w.Stats sys.today with
      | none =>
        simp only [hsv, hl, Bool.false_eq_true, if_false]
        exact ledgerWithinIndex_of_eq _ _ rfl rfl hidx
      | some led =>
        simp only [hsv, hl, Bool.false_eq_true, if_false]
        exact ledgerWithinIndex_entry
          { w with Stores := mset w.Stores sys.today
                     { cur with Files := mset cur.Files inp.Msgid ⟨inp.Meta⟩ } }
          _ sys.today inp.Msgid _ led _ (mget_mset_same _ _ _)
          (by simp [mget_mset_same]) rfl rfl hl hidx

theorem postWrite_ledgerWithinIndex (cfg : Config) (sys : Sys) (inp : PostInput)
    (store : DB) (b : Bool) (w : World) (h : LedgerWithinIndex w) :
    LedgerWithinIndex (postWrite cfg sys inp store b w).world := by
  unfold postWrite
  by_cases h1 : sys.osCreate = true
  · simp only [h1, if_true]
    exact ledgerWithinIndex_of_eq _ _ rfl rfl h
  by_cases h2 : sys.copy = true
  · simp only [h1, h2, Bool.false_eq_true, if_false, if_true, closing_world]
    exact ledgerWithinIndex_of_eq _ _ rfl rfl h
  simp only [h1, h2, Bool.false_eq_true, if_false, closing_world]
  exact postRecord_ledgerWithinIndex cfg sys inp store b _
    (ledgerWithinIndex_of_eq w _ rfl rfl h)

theorem Post_ledgerWithinIndex (cfg : Config) (sys : Sys) (dec : Option PostInput)
    (w : World) (h : LedgerWithinIndex w) : LedgerWithinIndex (Post cfg sys dec w).world := by
  cases dec with
  | none => exact h
  | some inp =>
    unfold Post
    by_cases hv : inp.Msgid = "" ∨ inp.Body = ""
    · simp only [if_pos hv]; exact h
    simp only [if_neg hv]
    cases hs : mget w.Stores sys.today with
    | some store =>
      by_cases hd : (mget store.Files inp.Msgid).isSome = true
      · simp only [hd, if_true]; exact h
      · simp only [hd, Bool.false_eq_true, if_false]
        exact postWrite_ledgerWithinIndex cfg sys inp store true w h
    | none =>
      by_cases hc : sys.configCreate = true
      · simp only [hc, if_true]; exact h
      · have hz : (mget zeroDB.Files inp.Msgid).isSome = false := rfl
        simp only [hc, hz, Bool.false_eq_true, if_false]
        exact postWrite_ledgerWithinIndex cfg sys inp zeroDB false _
          (configCreate_ledgerWithinIndex cfg sys w h)

theorem serve_ledgerWithinIndex (cfg : Config) (sys : Sys) (msgid readType date : String)
    (store : DB) (w : World) (hstore : mget w.Stores date = some store)
    (hheld : (mget store.Files msgid).isSome = true) (h : LedgerWithinIndex w) :
    LedgerWithinIndex (serve cfg sys msgid readType date store w).world := by
  unfold serve
  by_cases h1 : sys.osOpen = true
  · simp only [h1, if_true]
    exact ledgerWithinIndex_of_eq _ _ rfl rfl h
  · cases hf : mget w.disk (store.Basedir ++ msgid ++ ".txt") with
    | none =>
      simp only [h1, hf, Bool.false_eq_true, if_false]
      exact ledgerWithinIndex_of_eq _ _ rfl rfl h
    | some content =>
      by_cases h2 : sys.transmit = true
      · simp only [h1, hf, h2, Bool.false_eq_true, if_false, if_true, closing_world]
        exact ledgerWithinIndex_of_eq _ _ rfl rfl h
      · cases hl : mget w.Stats date with
        | none =>
          simp only [h1, hf, h2, hl, Bool.false_eq_true, if_false, closing_world]
          exact ledgerWithinIndex_of_eq _ _ rfl rfl h
        | some led =>
          simp only [h1, hf, h2, hl, Bool.false_eq_true, if_false, closing_world]
          exact ledgerWithinIndex_entry w _ date msgid store led _ hstore hheld rfl rfl hl h

theorem Get_ledgerWithinIndex (cfg : Config) (sys : Sys) (msgid readType : String)
    (w : World) (h : LedgerWithinIndex w) :
    LedgerWithinIndex (Get cfg sys msgid readType w).world := by
  unfold Get
  by_cases h1 : msgid = ""
  · simp only [if_pos h1]; exact h
  by_cases h2 : readType = ""
  · simp only [if_neg h1, if_pos h2]; exact h
  by_cases h3 : readType ≠ "HEAD" ∧ readType ≠ "ARTICLE" ∧ readType ≠ "BODY"
  · simp only [if_neg h1, if_neg h2, if_pos h3]; exact h
  simp only [if_neg h1, if_neg h2, if_neg h3]
  unfold lookupAndServe
  cases hr : resolve w.Stores msgid (rangeOrder sys w.Stores) with
  | none => exact h
  | some hit =>
    obtain ⟨date, store⟩ := hit
    obtain ⟨hd, hf⟩ := resolve_sound w.Stores msgid _ date store hr
    exact serve_ledgerWithinIndex cfg sys msgid readType date store w hd hf h

theorem Reachable_ledgerWithinIndex (cfg : Config) (w : World) (h : Reachable cfg w) :
    LedgerWithinIndex w := by
  induction h with
  | empty =>
    intro d led msgid hl _
    simp [mget] at hl
  | post sys dec w _ ih => exact Post_ledgerWithinIndex cfg sys dec w ih
  | get sys msgid readType w _ ih => exact Get_ledgerWithinIndex cfg sys msgid readType w ih

theorem no_entry_of_notHeld (w : World) (msgid today : String)
    (h : LedgerWithinIndex w) (hnot : NotHeld w msgid) :
    (mget w.Stats today).bind (fun led => mget led.Files msgid) = none := by
  cases hl : mget w.Stats today with
  | none => rfl
  | some led =>
    cases hf : mget led.Files msgid with
    | none => exact hf
    | some s =>
      obtain ⟨st, hst, hheld⟩ := h today led msgid hl (by simp [hf])
      have := hnot _ (mget_mem _ _ _ hst)
      simp [this] at hheld

/-! ## The properties of the specification -/

/-- C8, view-kind validation: an empty `msgid` is answered "msgid not given",
otherwise an empty type "type not given", otherwise a type other than HEAD,
ARTICLE and BODY "Type invalid value, valid=[HEAD, ARTICLE, BODY]"; each time
`Get` returns nil and leaves the whole state as it was (no file opened, no
index or ledger touched).  A non-empty `msgid` with one of the three types
goes on to the lookup and gets none of the three rejections. -/
theorem Get_validation (cfg : Config) (sys : Sys) (msgid readType : String) (w : World) :
    (msgid = "" →
      Get cfg sys msgid readType w = ⟨w, [Reply.json false "msgid not given"], Ret.nil, []⟩) ∧
    (msgid ≠ "" → readType = "" →
      Get cfg sys msgid readType w = ⟨w, [Reply.json false "type not given"], Ret.nil, []⟩) ∧
    (msgid ≠ "" → readType ≠ "" →
      readType ≠ "HEAD" → readType ≠ "ARTICLE" → readType ≠ "BODY" →
      Get cfg sys msgid readType w =
        ⟨w, [Reply.json false "Type invalid value, valid=[HEAD, ARTICLE, BODY]"], Ret.nil, []⟩) ∧
    (msgid ≠ "" → (readType = "HEAD" ∨ readType = "ARTICLE" ∨ readType = "BODY") →
      Get cfg sys msgid readType w = lookupAndServe cfg sys msgid readType w ∧
      Reply.json false "msgid not given" ∉ (Get cfg sys msgid readType w).out ∧
      Reply.json false "type not given" ∉ (Get cfg sys msgid readType w).out ∧
      Reply.json false "Type invalid value, valid=[HEAD, ARTICLE, BODY]" ∉
        (Get cfg sys msgid readType w).out) := by
  refine ⟨?_, ?_, ?_, ?_⟩
  · intro h; simp [Get, h]
  · intro h1 h2; simp [Get, h1, h2]
  · intro h1 h2 h3 h4 h5; simp [Get, h1, h2, h3, h4, h5]
  · intro h1 h2
    have hne : readType ≠ "" := by
      rcases h2 with h | h | h <;> rw [h] <;> decide
    have hval : ¬ (readType ≠ "HEAD" ∧ readType ≠ "ARTICLE" ∧ readType ≠ "BODY") := by
      rintro ⟨a, b, c⟩
      rcases h2 with h | h | h
      · exact a h
      · exact b h
      · exact c h
    have hG : Get cfg sys msgid readType w = lookupAndServe cfg sys msgid readType w := by
      unfold Get
      rw [if_neg h1, if_neg hne, if_neg hval]
    rw [hG]
    refine ⟨rfl, ?_⟩
    unfold lookupAndServe
    obtain ⟨n1, n2, n3⟩ := notFound_ne_validation msgid
    cases hr : resolve w.Stores msgid (rangeOrder sys w.Stores) with
    | none =>
      simp only [List.mem_singleton, Reply.json.injEq, true_and]
      exact ⟨fun e => n1 e.symm, fun e => n2 e.symm, fun e => n3 e.symm⟩
    | some hit =>
      obtain ⟨date, store⟩ := hit
      exact ⟨serve_no_json _ _ _ _ _ _ _ _ _, serve_no_json _ _ _ _ _ _ _ _ _,
        serve_no_json _ _ _ _ _ _ _ _ _⟩

/-- C8 at concrete requests: no msgid; no type; the type "FULL"; and the type
"ARTICLE" with a msgid, which passes. -/
theorem Get_validation_witness :
    Get cfg0 calm "" "ARTICLE" dayWorld =
        ⟨dayWorld, [Reply.json false "msgid not given"], Ret.nil, []⟩ ∧
    Get cfg0 calm "a" "" dayWorld =
        ⟨dayWorld, [Reply.json false "type not given"], Ret.nil, []⟩ ∧
    Get cfg0 calm "a" "FULL" dayWorld =
        ⟨dayWorld, [Reply.json false "Type invalid value, valid=[HEAD, ARTICLE, BODY]"],
          Ret.nil, []⟩ ∧
    Get cfg0 calm "a" "ARTICLE" dayWorld = lookupAndServe cfg0 calm "a" "ARTICLE" dayWorld :=
  ⟨(Get_validation cfg0 calm "" "ARTICLE" dayWorld).1 rfl,
   (Get_validation cfg0 calm "a" "" dayWorld).2.1 (by decide) rfl,
   (Get_validation cfg0 calm "a" "FULL" dayWorld).2.2.1 (by decide) (by decide) (by decide)
     (by decide) (by decide),
   ((Get_validation cfg0 calm "a" "ARTICLE" dayWorld).2.2.2 (by decide)
     (Or.inr (Or.inl rfl))).1⟩

/-- C9, missing-field rejection on ingest: a decoded input with an empty
`Msgid` or an empty `Body` is answered `{false, "Missing msgid or body"}`,
`Post` returns nil and the whole state is as before (no partition created, no
file written, nothing added to an index or ledger, no storage call made).  An
input with both fields non-empty never gets that reply. -/
theorem Post_missing_field (cfg : Config) (sys : Sys) (inp : PostInput) (w : World) :
    ((inp.Msgid = "" ∨ inp.Body = "") →
      Post cfg sys (some inp) w =
        ⟨w, [Reply.json false "Missing msgid or body"], Ret.nil, []⟩) ∧
    (inp.Msgid ≠ "" → inp.Body ≠ "" →
      Reply.json false "Missing msgid or body" ∉ (Post cfg sys (some inp) w).out) := by
  constructor
  · intro h
    simp [Post, h]
  · intro h1 h2
    have hv : ¬ (inp.Msgid = "" ∨ inp.Body = "") := by
      rintro (h | h)
      · exact h1 h
      · exact h2 h
    have hw : ∀ store hasStore w1,
        Reply.json false "Missing msgid or body" ∉
          (postWrite cfg sys inp store hasStore w1).out := by
      intro store hasStore w1
      rcases postWrite_out cfg sys inp store hasStore w1 with h | h <;> simp [h]
    unfold Post
    simp only [if_neg hv]
    cases hs : mget w.Stores sys.today with
    | some store =>
      by_cases hdup : (mget store.Files inp.Msgid).isSome = true
      · simp only [hdup, if_true, List.mem_singleton, Reply.json.injEq, true_and]
        exact fun e => already_ne_missing inp.Msgid e.symm
      · simp only [hdup, Bool.false_eq_true, if_false]
        exact hw _ _ _
    | none =>
      by_cases hc : sys.configCreate = true
      · simp [hc]
      · have hz : (mget zeroDB.Files inp.Msgid).isSome = false := rfl
        simp only [hc, hz, Bool.false_eq_true, if_false]
        exact hw _ _ _

/-- C9 at concrete inputs: an empty `Msgid`, an empty `Body`, and the article
`a` with body `x`. -/
theorem Post_missing_field_witness :
    Post cfg0 calm (some ⟨"", "x", []⟩) emptyWorld =
        ⟨emptyWorld, [Reply.json false "Missing msgid or body"], Ret.nil, []⟩ ∧
    Post cfg0 calm (some ⟨"a", "", []⟩) emptyWorld =
        ⟨emptyWorld, [Reply.json false "Missing msgid or body"], Ret.nil, []⟩ ∧
    Reply.json false "Missing msgid or body" ∉ (Post cfg0 calm (some art) emptyWorld).out :=
  ⟨(Post_missing_field cfg0 calm ⟨"", "x", []⟩ emptyWorld).1 (Or.inl rfl),
   (Post_missing_field cfg0 calm ⟨"a", "", []⟩ emptyWorld).1 (Or.inr rfl),
   (Post_missing_field cfg0 calm art emptyWorld).2 (by decide) (by decide)⟩

/-- C7, not found: for a non-empty identifier and a valid type, when no
partition holds the identifier `Get` answers `{false, "Article not found
msgid=<identifier>"}`, returns nil and leaves the whole state as it was (no
file opened, no index or ledger touched); when some partition holds it, `Get`
does not answer not-found: it serves from a partition whose index holds the
identifier, opening the file under that partition's `Basedir` and leaving the
index and the ledgers of all other partitions alone. -/
theorem Get_not_found (cfg : Config) (sys : Sys) (msgid readType : String) (w : World)
    (hid : msgid ≠ "")
    (hrt : readType = "HEAD" ∨ readType = "ARTICLE" ∨ readType = "BODY") :
    (NotHeld w msgid →
      Get cfg sys msgid readType w =
        ⟨w, [Reply.json false ("Article not found msgid=" ++ msgid)], Ret.nil,
          ["WARN: " ++ ("Article not found msgid=" ++ msgid)]⟩) ∧
    ((∃ date store, mget w.Stores date = some store ∧
        (mget store.Files msgid).isSome = true) →
      ∃ date store, mget w.Stores date = some store ∧
        (mget store.Files msgid).isSome = true ∧
        Get cfg sys msgid readType w = serve cfg sys msgid readType date store w ∧
        Reply.json false ("Article not found msgid=" ++ msgid) ∉
          (Get cfg sys msgid readType w).out ∧
        Call.osOpen (store.Basedir ++ msgid ++ ".txt") ∈
          (Get cfg sys msgid readType w).world.calls ∧
        (Get cfg sys msgid readType w).world.Stores = w.Stores ∧
        ∀ d, d ≠ date → mget (Get cfg sys msgid readType w).world.Stats d = mget w.Stats d) := by
  rw [Get_valid cfg sys msgid readType w hid hrt]
  constructor
  · intro hnot
    unfold lookupAndServe
    rw [resolve_none w.Stores msgid _ hnot]
    rfl
  · rintro ⟨date, store, hd, hf⟩
    have hmem : date ∈ rangeOrder sys w.Stores :=
      List.mem_append_right _ (key_mem_of_mget w.Stores date store hd)
    obtain ⟨d, st, hr⟩ := resolve_hit w.Stores msgid _ date store hd hf hmem
    obtain ⟨hd1, hf1⟩ := resolve_sound w.Stores msgid _ d st hr
    refine ⟨d, st, hd1, hf1, ?_⟩
    have hL : lookupAndServe cfg sys msgid readType w =
        serve cfg sys msgid readType d st w := by
      unfold lookupAndServe
      rw [hr]
    rw [hL]
    exact ⟨rfl, serve_no_json _ _ _ _ _ _ _ _ _, serve_opens _ _ _ _ _ _ _,
      serve_stores _ _ _ _ _ _ _, fun d1 h1 => serve_stats_other _ _ _ _ _ _ _ d1 h1⟩

/-- C7 at concrete requests: the identifier `a` asked of the empty registry,
and asked again once it was posted into the partition of the day. -/
theorem Get_not_found_witness :
    Get cfg0 calm "a" "ARTICLE" emptyWorld =
        ⟨emptyWorld, [Reply.json false "Article not found msgid=a"], Ret.nil,
          ["WARN: Article not found msgid=a"]⟩ ∧
    Reply.json false "Article not found msgid=a" ∉
      (Get cfg0 calm "a" "ARTICLE" (Post cfg0 calm (some art) dayWorld).world).out :=
  ⟨(Get_not_found cfg0 calm "a" "ARTICLE" emptyWorld (by decide)
      (Or.inr (Or.inl rfl))).1 (by decide),
   by
    obtain ⟨_, _, _, _, _, h, _⟩ :=
      (Get_not_found cfg0 calm "a" "ARTICLE" (Post cfg0 calm (some art) dayWorld).world
        (by decide) (Or.inr (Or.inl rfl))).2
        ⟨"2024-01-01", ⟨"/spool/2024-01-01/", 0, [("a", ⟨[]⟩)]⟩, by decide, by decide⟩
    exact h⟩

/-- C10, ledger persistence is best-effort.  Whether `config.SaveStats` fails
or not, `Post` and `Get` leave the same state, write the same response and end
the same way.  In particular a `Post` whose file write and index persist
succeeded still answers `{true, "Saved"}` and returns nil when `SaveStats`
fails, with the identifier in the index of today and its ledger entry carrying
the age; and a `Get` that transmitted the article still returns nil, with the
ledger entry counted up and its last-read age set; the failure only prints a
warning. -/
theorem stats_failure_is_benign (cfg : Config) (sys : Sys) (w : World) :
    (∀ dec b,
      (Post cfg { sys with saveStats := b } dec w).world = (Post cfg sys dec w).world ∧
      (Post cfg { sys with saveStats := b } dec w).out = (Post cfg sys dec w).out ∧
      (Post cfg { sys with saveStats := b } dec w).ret = (Post cfg sys dec w).ret) ∧
    (∀ msgid readType b,
      (Get cfg { sys with saveStats := b } msgid readType w).world =
        (Get cfg sys msgid readType w).world ∧
      (Get cfg { sys with saveStats := b } msgid readType w).out =
        (Get cfg sys msgid readType w).out ∧
      (Get cfg { sys with saveStats := b } msgid readType w).ret =
        (Get cfg sys msgid readType w).ret) ∧
    (∀ inp, sys.saveStats = true → sys.configCreate = false → sys.osCreate = false →
      sys.copy = false → sys.close = false → sys.save = false →
      inp.Msgid ≠ "" → inp.Body ≠ "" → Ledgered w →
      mget (storeVar sys w).Files inp.Msgid = none →
      (Post cfg sys (some inp) w).out = [Reply.json true "Saved"] ∧
      (Post cfg sys (some inp) w).ret = Ret.nil ∧
      ("WARN: Failed saving stats: " ++ sys.errText) ∈ (Post cfg sys (some inp) w).log ∧
      (∃ st, mget (Post cfg sys (some inp) w).world.Stores sys.today = some st ∧
        mget st.Files inp.Msgid = some ⟨inp.Meta⟩) ∧
      (∃ led s, mget (Post cfg sys (some inp) w).world.Stats sys.today = some led ∧
        mget led.Files inp.Msgid = some s ∧ s.Age = (storeVar sys w).Since sys.clock)) ∧
    (∀ msgid readType date store content led,
      sys.saveStats = true → sys.osOpen = false → sys.transmit = false →
      sys.close = false → msgid ≠ "" →
      (readType = "HEAD" ∨ readType = "ARTICLE" ∨ readType = "BODY") →
      resolve w.Stores msgid (rangeOrder sys w.Stores) = some (date, store) →
      mget w.disk (store.Basedir ++ msgid ++ ".txt") = some content →
      mget w.Stats date = some led →
      (Get cfg sys msgid readType w).out = [Reply.plain (selectView cfg readType content)] ∧
      (Get cfg sys msgid readType w).ret = Ret.nil ∧
      ("WARN: Failed saving stats: " ++ sys.errText) ∈ (Get cfg sys msgid readType w).log ∧
      (Get cfg sys msgid readType w).world.Stores = w.Stores ∧
      (∃ led1 s, mget (Get cfg sys msgid readType w).world.Stats date = some led1 ∧
        mget led1.Files msgid = some s ∧
        s.Count = ((mget led.Files msgid).getD zeroStat).Count + 1 ∧
        s.Last = store.Since sys.clock)) := by
  refine ⟨fun dec b => Post_flag cfg sys dec w b,
    fun msgid readType b => Get_flag cfg sys msgid readType w b, ?_, ?_⟩
  · intro inp hss hcc hoc hcp hcl hsv h1 h2 hw hdup
    obtain ⟨led, hl, -, -⟩ := prepared_ledger cfg sys w hw
    rw [Post_eq cfg sys inp w h1 h2 (storeVar_lacks sys w inp.Msgid hdup) (fun _ => hcc),
      postWrite_eq cfg sys inp _ _ _ _ led hoc hcp hsv (prepared_today cfg sys w) hl,
      closing_calm _ _ hcl]
    refine ⟨rfl, rfl, ?_, ?_, ?_⟩
    · simp [statsWarning, hss]
    · exact ⟨_, mget_mset_same _ _ _, mget_mset_same _ _ _⟩
    · exact ⟨_, _, mget_mset_same _ _ _, mget_mset_same _ _ _, rfl⟩
  · intro msgid readType date store content led hss hop htr hcl hid hrt hres hf hl
    have hG : Get cfg sys msgid readType w = serve cfg sys msgid readType date store w := by
      rw [Get_valid cfg sys msgid readType w hid hrt]
      unfold lookupAndServe
      rw [hres]
    rw [hG, serve_eq cfg sys msgid readType date store w content led hop htr hf hl,
      closing_calm _ _ hcl]
    refine ⟨rfl, rfl, ?_, rfl, ?_⟩
    · simp [statsWarning, hss]
    · exact ⟨_, _, mget_mset_same _ _ _, mget_mset_same _ _ _, rfl, rfl⟩

/-- C10 at concrete requests: the article `a` posted and then read while
`config.SaveStats` fails. -/
theorem stats_failure_is_benign_witness :
    (Post cfg0 statsDown (some art) dayWorld).out = [Reply.json true "Saved"] ∧
    (Post cfg0 statsDown (some art) dayWorld).ret = Ret.nil ∧
    (Get cfg0 statsDown "a" "ARTICLE" (Post cfg0 statsDown (some art) dayWorld).world).out =
      [Reply.plain "x"] ∧
    (Get cfg0 statsDown "a" "ARTICLE" (Post cfg0 statsDown (some art) dayWorld).world).ret =
      Ret.nil :=
  have hP := (stats_failure_is_benign cfg0 statsDown dayWorld).2.2.1 art rfl rfl rfl rfl rfl rfl
    (by decide) (by decide) (by decide) (by decide)
  have hG := (stats_failure_is_benign cfg0 statsDown
      (Post cfg0 statsDown (some art) dayWorld).world).2.2.2
    "a" "ARTICLE" "2024-01-01" ⟨"/spool/2024-01-01/", 0, [("a", ⟨[]⟩)]⟩ "x"
    ⟨[("a", ⟨0, 0, 101⟩)]⟩ rfl rfl rfl rfl (by decide) (Or.inr (Or.inl rfl))
    (by decide) (by decide) (by decide)
  ⟨hP.1, hP.2.1, hG.1, hG.2.1⟩

/-- C3 as stated fails: the identifier `a` is held by no partition, the first
`Post` on 2024-01-01 is accepted, and a second `Post` of the same identifier
one day later, every storage call succeeding, is accepted as well instead of
being rejected with "Already have article a". -/
theorem duplicate_on_next_day_is_accepted :
    NotHeld dayWorld "a" ∧
    (Post cfg0 calm (some art) dayWorld).out = [Reply.json true "Saved"] ∧
    (Post cfg0 nextDay (some art2) (Post cfg0 calm (some art) dayWorld).world).out =
      [Reply.json true "Saved"] ∧
    (Post cfg0 nextDay (some art2) (Post cfg0 calm (some art) dayWorld).world).out ≠
      [Reply.json false "Already have article a"] := by
  decide

/-- C3, amended to two requests on the same calendar day: for an identifier
held by no partition and two non-empty bodies, when every storage call of the
first `Post` succeeds it is accepted with "Saved"; a second `Post` of the same
identifier on the same day is answered `{false, "Already have article
<identifier>"}`, returns nil and leaves the whole state as the first left it
(no file written, no index or ledger changed, no storage call made); and when
the partition of the day existed before the first `Post`, the file of the
identifier under its `Basedir` holds the first body afterwards. -/
theorem duplicate_same_day (cfg : Config) (sys1 sys2 : Sys) (msgid b1 b2 : String)
    (m1 m2 : GoMap String) (w : World)
    (hday : sys2.today = sys1.today)
    (hid : msgid ≠ "") (hb1 : b1 ≠ "") (hb2 : b2 ≠ "")
    (hnot : NotHeld w msgid) (hw : Ledgered w)
    (hcc : sys1.configCreate = false) (hoc : sys1.osCreate = false)
    (hcp : sys1.copy = false) (hfl : sys1.flush = false) (hcl : sys1.close = false)
    (hsv : sys1.save = false) :
    (Post cfg sys1 (some ⟨msgid, b1, m1⟩) w).out = [Reply.json true "Saved"] ∧
    (Post cfg sys1 (some ⟨msgid, b1, m1⟩) w).ret = Ret.nil ∧
    Post cfg sys2 (some ⟨msgid, b2, m2⟩) (Post cfg sys1 (some ⟨msgid, b1, m1⟩) w).world =
      ⟨(Post cfg sys1 (some ⟨msgid, b1, m1⟩) w).world,
        [Reply.json false ("Already have article " ++ msgid)], Ret.nil, []⟩ ∧
    (∀ store, mget w.Stores sys1.today = some store →
      mget (Post cfg sys2 (some ⟨msgid, b2, m2⟩)
          (Post cfg sys1 (some ⟨msgid, b1, m1⟩) w).world).world.disk
        (store.Basedir ++ msgid ++ ".txt") = some b1) := by
  obtain ⟨led, hl, -, -⟩ := prepared_ledger cfg sys1 w hw
  have hdup := storeVar_lacks sys1 w msgid (storeVar_of_notHeld sys1 w msgid hnot)
  have hP : Post cfg sys1 (some ⟨msgid, b1, m1⟩) w = _ :=
    (Post_eq cfg sys1 ⟨msgid, b1, m1⟩ w hid hb1 hdup (fun _ => hcc)).trans
      ((postWrite_eq cfg sys1 ⟨msgid, b1, m1⟩ _ _ _ _ led hoc hcp hsv
        (prepared_today cfg sys1 w) hl).trans (closing_calm _ _ hcl))
  have h2 : Post cfg sys2 (some ⟨msgid, b2, m2⟩) (Post cfg sys1 (some ⟨msgid, b1, m1⟩) w).world =
      ⟨(Post cfg sys1 (some ⟨msgid, b1, m1⟩) w).world,
        [Reply.json false ("Already have article " ++ msgid)], Ret.nil, []⟩ := by
    have hs : mget (Post cfg sys1 (some ⟨msgid, b1, m1⟩) w).world.Stores sys2.today =
        some { todayDB cfg sys1 w with
          Files := mset (todayDB cfg sys1 w).Files msgid ⟨m1⟩ } := by
      rw [hP, hday]
      exact mget_mset_same _ _ _
    exact Post_duplicate cfg sys2 ⟨msgid, b2, m2⟩ _ _ hid hb2 hs
      (by simp [mget_mset_same])
  refine ⟨by rw [hP], by rw [hP], h2, ?_⟩
  intro store hs
  rw [h2]
  rw [hP]
  simp only [hfl, Bool.false_eq_true, if_false, storeVar, hs, Option.getD_some]
  exact mget_mset_same _ _ _

/-- C3, amended, at concrete requests: the article `a` posted twice on
2024-01-01 with the bodies `x` and `y`. -/
theorem duplicate_same_day_witness :
    (Post cfg0 calm (some art) dayWorld).out = [Reply.json true "Saved"] ∧
    Post cfg0 calm (some art2) (Post cfg0 calm (some art) dayWorld).world =
      ⟨(Post cfg0 calm (some art) dayWorld).world,
        [Reply.json false "Already have article a"], Ret.nil, []⟩ :=
  have h := duplicate_same_day cfg0 calm calm "a" "x" "y" [] [] dayWorld rfl
    (by decide) (by decide) (by decide) (by decide) (by decide) rfl rfl rfl rfl rfl rfl
  ⟨h.1, h.2.2.1⟩

/-- C5 as stated fails: `config.Save` fails for the article `a`, `Post` returns
the error, yet the index of the day is not what it was before: it holds `a`,
and the same `Post` tried again with every call succeeding is answered
"Already have article a". -/
theorem save_failure_keeps_index_entry :
    (Post cfg0 saveDown (some art) dayWorld).ret = Ret.err Step.save ∧
    (Post cfg0 saveDown (some art) dayWorld).world.Stores ≠ dayWorld.Stores ∧
    mget (Post cfg0 saveDown (some art) dayWorld).world.Stores "2024-01-01" =
      some ⟨"/spool/2024-01-01/", 0, [("a", ⟨[]⟩)]⟩ ∧
    (Post cfg0 calm (some art) (Post cfg0 saveDown (some art) dayWorld).world).out =
      [Reply.json false "Already have article a"] := by
  decide

/-- C5, amended: when the article file is written and `config.Save` fails,
`Post` returns the error and writes no reply, `Msgid` answers
`{false, "Processing error"}`, no ledger is touched (the ledgers are those left
by lines 40-45, the ones before the `Post` when the partition of the day
existed) and `config.SaveStats` is not called with them; the identifier
however stays in the in-memory index of the partition of the day with its
attributes, so that a `Post` of the same identifier tried again on that day is
answered "Already have article <identifier>". -/
theorem save_failure (cfg : Config) (sys : Sys) (inp : PostInput) (w : World)
    (h1 : inp.Msgid ≠ "") (h2 : inp.Body ≠ "")
    (hdup : mget (storeVar sys w).Files inp.Msgid = none)
    (hcc : sys.configCreate = false) (hoc : sys.osCreate = false)
    (hcp : sys.copy = false) (hcl : sys.close = false) (hsv : sys.save = true) :
    (Post cfg sys (some inp) w).ret = Ret.err Step.save ∧
    (Post cfg sys (some inp) w).out = [] ∧
    (Msgid cfg sys ⟨"POST", "", "", some inp⟩ w).out =
      [Reply.json false "Processing error"] ∧
    (Post cfg sys (some inp) w).world.Stats = (prepared cfg sys w).Stats ∧
    ((mget w.Stores sys.today).isSome = true →
      (Post cfg sys (some inp) w).world.Stats = w.Stats) ∧
    (∀ dir led, Call.saveStats dir led ∈ (Post cfg sys (some inp) w).world.calls →
      Call.saveStats dir led ∈ w.calls) ∧
    (∃ st, mget (Post cfg sys (some inp) w).world.Stores sys.today = some st ∧
      mget st.Files inp.Msgid = some ⟨inp.Meta⟩) ∧
    (∀ sys2 body2 meta2, sys2.today = sys.today → body2 ≠ "" →
      Post cfg sys2 (some ⟨inp.Msgid, body2, meta2⟩) (Post cfg sys (some inp) w).world =
        ⟨(Post cfg sys (some inp) w).world,
          [Reply.json false ("Already have article " ++ inp.Msgid)], Ret.nil, []⟩) := by
  have hP : Post cfg sys (some inp) w = _ :=
    (Post_eq cfg sys inp w h1 h2 (storeVar_lacks sys w inp.Msgid hdup) (fun _ => hcc)).trans
      ((postWrite_save_fault cfg sys inp _ _ _ _ hoc hcp hsv
        (prepared_today cfg sys w)).trans (closing_calm _ _ hcl))
  have hM : (Msgid cfg sys ⟨"POST", "", "", some inp⟩ w).out =
      [Reply.json false "Processing error"] := by
    have hne : ¬ ("POST" = "GET") := by decide
    unfold Msgid
    simp only [if_neg hne, if_true]
    rw [hP]
    rfl
  refine ⟨by rw [hP], by rw [hP], hM, by rw [hP], ?_, ?_, ?_, ?_⟩
  · intro hsome
    rw [hP]
    obtain ⟨store, hs⟩ := Option.isSome_iff_exists.mp hsome
    simp [prepared, hs]
  · intro dir led hmem
    rw [hP] at hmem
    simp only [List.mem_append, List.mem_singleton, reduceCtorEq, or_false] at hmem
    unfold prepared at hmem
    cases hs : mget w.Stores sys.today with
    | some store => simpa [hs] using hmem
    | none => simpa [hs, configCreate] using hmem
  · rw [hP]
    exact ⟨_, mget_mset_same _ _ _, mget_mset_same _ _ _⟩
  · intro sys2 body2 meta2 hday hb2
    have hs : mget (Post cfg sys (some inp) w).world.Stores sys2.today =
        some { todayDB cfg sys w with
          Files := mset (todayDB cfg sys w).Files inp.Msgid ⟨inp.Meta⟩ } := by
      rw [hP, hday]
      exact mget_mset_same _ _ _
    exact Post_duplicate cfg sys2 ⟨inp.Msgid, body2, meta2⟩ _ _ h1 hb2 hs
      (by simp [mget_mset_same])

/-- C5, amended, at a concrete request: the article `a` posted into the
partition of the day while `config.Save` fails. -/
theorem save_failure_witness :
    (Post cfg0 saveDown (some art) dayWorld).ret = Ret.err Step.save ∧
    (Msgid cfg0 saveDown ⟨"POST", "", "", some art⟩ dayWorld).out =
      [Reply.json false "Processing error"] ∧
    (Post cfg0 saveDown (some art) dayWorld).world.Stats = dayWorld.Stats :=
  have h := save_failure cfg0 saveDown art dayWorld (by decide) (by decide) (by decide)
    rfl rfl rfl rfl rfl
  ⟨h.1, h.2.2.1, h.2.2.2.2.1 (by decide)⟩

/-- Read counting from a state in which the identifier is held by no partition
and has no entry in the ledger of the day: after the accepted `Post` and N
served `Get` requests the entry has `Count = N`, and one more served `Get`
adds one, keeps `Age` and sets `Last`. -/
theorem read_counting_of_no_entry (cfg : Config) (sysP : Sys) (inp : PostInput) (w0 : World)
    (rs : List (Sys × String)) (r : Sys × String) (wN wN1 : World)
    (hnot : NotHeld w0 inp.Msgid)
    (hfresh : (mget w0.Stats sysP.today).bind (fun led => mget led.Files inp.Msgid) = none)
    (hout : (Post cfg sysP (some inp) w0).out = [Reply.json true "Saved"])
    (hN : reads cfg inp.Msgid rs (Post cfg sysP (some inp) w0).world = some wN)
    (hN1 : reads cfg inp.Msgid (rs ++ [r]) (Post cfg sysP (some inp) w0).world = some wN1) :
    ∃ st led led1 s s1,
      mget wN.Stores sysP.today = some st ∧ (mget st.Files inp.Msgid).isSome = true ∧
      mget wN.Stats sysP.today = some led ∧ mget led.Files inp.Msgid = some s ∧
      mget wN1.Stats sysP.today = some led1 ∧ mget led1.Files inp.Msgid = some s1 ∧
      s.Count = rs.length ∧ s1.Count = s.Count + 1 ∧ s1.Age = s.Age ∧
      s1.Last = st.Since r.1.clock ∧
      (∀ p, rs.getLast? = some p →
        s.Last = st.Since p.1.clock ∧ (p.1.clock ≤ r.1.clock → s.Last ≤ s1.Last)) := by
  obtain ⟨led0, hl0, hS, hT⟩ :=
    Post_saved cfg sysP inp w0 (storeVar_of_notHeld sysP w0 inp.Msgid hnot) hout
  have hnone : mget led0.Files inp.Msgid = none := by
    unfold prepared at hl0
    cases hs : mget w0.Stores sysP.today with
    | some store =>
      simp only [hs] at hl0
      simpa [hl0] using hfresh
    | none =>
      simp only [hs, configCreate, mget_mset_same, Option.some.injEq] at hl0
      subst hl0
      rfl
  have hs1 : mget (Post cfg sysP (some inp) w0).world.Stores sysP.today =
      some { todayDB cfg sysP w0 with
        Files := mset (todayDB cfg sysP w0).Files inp.Msgid ⟨inp.Meta⟩ } := by
    rw [hS]; exact mget_mset_same _ _ _
  have hu1 := Post_sole_holder cfg sysP inp w0 hnot hout
  have hl1 : mget (Post cfg sysP (some inp) w0).world.Stats sysP.today =
      some ⟨mset led0.Files inp.Msgid
        { (mget led0.Files inp.Msgid).getD zeroStat with
          Age := (storeVar sysP w0).Since sysP.clock }⟩ := by
    rw [hT]; exact mget_mset_same _ _ _
  obtain ⟨hSN, ledN, sN, a1, a2, a3, a4, a5⟩ :=
    reads_ledger cfg inp.Msgid sysP.today _ rs _ wN _ _ hs1 hu1 hl1
      (mget_mset_same _ _ _) hN
  have hone : reads cfg inp.Msgid [r] wN = some wN1 := by
    rw [reads_append, hN] at hN1
    exact hN1
  have hsN : mget wN.Stores sysP.today =
      some { todayDB cfg sysP w0 with
        Files := mset (todayDB cfg sysP w0).Files inp.Msgid ⟨inp.Meta⟩ } := by
    rw [hSN]; exact hs1
  have huN : SoleHolder wN.Stores inp.Msgid sysP.today := by rw [hSN]; exact hu1
  obtain ⟨-, led1, s1, b1, b2, b3, b4, b5⟩ :=
    reads_ledger cfg inp.Msgid sysP.today _ [r] _ wN1 _ _ hsN huN a1 a2 hone
  have hlast : s1.Last = DB.Since _ r.1.clock := b5 r (by simp)
  refine ⟨_, ledN, led1, sN, s1, hsN, by simp [mget_mset_same], a1, a2, b1, b2, ?_, ?_, b4,
    hlast, ?_⟩
  · rw [a3]
    simp [hnone, zeroStat]
  · rw [b3]
    rfl
  · intro p hp
    refine ⟨a5 p hp, ?_⟩
    intro hle
    rw [a5 p hp, hlast]
    simp only [DB.Since]
    omega

/-- C6, amended to an identifier that one partition holds: in a registry the
handlers built from the empty one, an identifier held by no partition is
posted and accepted, so that the partition of that day is the only one holding
it; after N served `Get` requests for it (any types, any surroundings, any
order of `range`) its ledger entry in that partition has `Count = N`, and
`Last` is the `Since()` of that partition at the clock of the most recent of
them; one more served `Get` raises `Count` by exactly one, leaves `Age` as it
was and sets `Last` to the `Since()` at its own clock, which, `Since()` being
the time elapsed since the creation of the partition, is not below the
previous `Last` when the clock did not go back. -/
theorem read_counting (cfg : Config) (sysP : Sys) (inp : PostInput) (w0 : World)
    (rs : List (Sys × String)) (r : Sys × String) (wN wN1 : World)
    (hreach : Reachable cfg w0)
    (hnot : NotHeld w0 inp.Msgid)
    (hout : (Post cfg sysP (some inp) w0).out = [Reply.json true "Saved"])
    (hN : reads cfg inp.Msgid rs (Post cfg sysP (some inp) w0).world = some wN)
    (hN1 : reads cfg inp.Msgid (rs ++ [r]) (Post cfg sysP (some inp) w0).world = some wN1) :
    SoleHolder (Post cfg sysP (some inp) w0).world.Stores inp.Msgid sysP.today ∧
    ∃ st led led1 s s1,
      mget wN.Stores sysP.today = some st ∧ (mget st.Files inp.Msgid).isSome = true ∧
      mget wN.Stats sysP.today = some led ∧ mget led.Files inp.Msgid = some s ∧
      mget wN1.Stats sysP.today = some led1 ∧ mget led1.Files inp.Msgid = some s1 ∧
      s.Count = rs.length ∧ s1.Count = s.Count + 1 ∧ s1.Age = s.Age ∧
      s1.Last = st.Since r.1.clock ∧
      (∀ p, rs.getLast? = some p →
        s.Last = st.Since p.1.clock ∧ (p.1.clock ≤ r.1.clock → s.Last ≤ s1.Last)) :=
  ⟨Post_sole_holder cfg sysP inp w0 hnot hout,
    read_counting_of_no_entry cfg sysP inp w0 rs r wN wN1 hnot
      (no_entry_of_notHeld w0 inp.Msgid sysP.today
        (Reachable_ledgerWithinIndex cfg w0 hreach) hnot)
      hout hN hN1⟩

/-- C6, amended, at concrete requests: in the registry left by the first
request of 2024-01-01 the article `a` is posted, read once and then read once
more a little later; the counts are 1 and 2. -/
theorem read_counting_witness :
    ∃ st led led1 s s1,
      mget (Get cfg0 calm "a" "ARTICLE" (Post cfg0 calm (some art) openedDay).world).world.Stores
        "2024-01-01" = some st ∧
      (mget st.Files "a").isSome = true ∧
      mget (Get cfg0 calm "a" "ARTICLE" (Post cfg0 calm (some art) openedDay).world).world.Stats
        "2024-01-01" = some led ∧
      mget led.Files "a" = some s ∧
      mget (Get cfg0 later "a" "HEAD"
          (Get cfg0 calm "a" "ARTICLE" (Post cfg0 calm (some art) openedDay).world).world).world.Stats
        "2024-01-01" = some led1 ∧
      mget led1.Files "a" = some s1 ∧
      s.Count = 1 ∧ s1.Count = s.Count + 1 ∧ s1.Age = s.Age ∧
      s1.Last = st.Since 205 ∧
      (∀ p, [(calm, "ARTICLE")].getLast? = some p →
        s.Last = st.Since p.1.clock ∧ (p.1.clock ≤ (205 : Int) → s.Last ≤ s1.Last)) :=
  (read_counting cfg0 calm art openedDay [(calm, "ARTICLE")] (later, "HEAD")
    (Get cfg0 calm "a" "ARTICLE" (Post cfg0 calm (some art) openedDay).world).world
    (Get cfg0 later "a" "HEAD"
      (Get cfg0 calm "a" "ARTICLE" (Post cfg0 calm (some art) openedDay).world).world).world
    (Reachable.post calm (some artB) emptyWorld Reachable.empty)
    (by decide) (by decide) (by decide) (by decide)).2

/-- C6 as stated fails: starting from the empty registry, `a` is posted and
accepted on 2024-01-01 and again on 2024-01-02 (each day after another article
opened the partition), so both partitions hold it; two `Get` requests for `a`
are then served, `range` meeting one partition first and then the other; with
N = 2 the ledger entry of `a` has `Count = 1` in the partition of 2024-01-01
and `Count = 1` in the partition of 2024-01-02, not 2 in either. -/
theorem read_counts_split_when_held_twice :
    Reachable cfg0 twiceHeld ∧
    (Post cfg0 calm (some art) openedDay).out = [Reply.json true "Saved"] ∧
    (Post cfg0 nextDay (some art2)
      (Post cfg0 nextDay (some artC)
        (Post cfg0 calm (some art) openedDay).world).world).out =
      [Reply.json true "Saved"] ∧
    (Get cfg0 dayOneFirst "a" "ARTICLE" twiceHeld).served = true ∧
    (Get cfg0 dayTwoFirst "a" "ARTICLE"
      (Get cfg0 dayOneFirst "a" "ARTICLE" twiceHeld).world).served = true ∧
    reads cfg0 "a" [(dayOneFirst, "ARTICLE"), (dayTwoFirst, "ARTICLE")] twiceHeld =
      some (Get cfg0 dayTwoFirst "a" "ARTICLE"
        (Get cfg0 dayOneFirst "a" "ARTICLE" twiceHeld).world).world ∧
    ((mget (Get cfg0 dayTwoFirst "a" "ARTICLE"
        (Get cfg0 dayOneFirst "a" "ARTICLE" twiceHeld).world).world.Stats "2024-01-01").bind
      (fun led => mget led.Files "a")).map FileStat.Count = some 1 ∧
    ((mget (Get cfg0 dayTwoFirst "a" "ARTICLE"
        (Get cfg0 dayOneFirst "a" "ARTICLE" twiceHeld).world).world.Stats "2024-01-02").bind
      (fun led => mget led.Files "a")).map FileStat.Count = some 1 :=
  ⟨Reachable.post nextDay (some art2) _
      (Reachable.post nextDay (some artC) _
        (Reachable.post calm (some art) _
          (Reachable.post calm (some artB) emptyWorld Reachable.empty))),
    by decide⟩

/-- C1 fails on the code when the `Post` creates the partition of the day: on
the empty registry the article `a` with body `x` is accepted, every storage
call succeeding, but its file was written to `a.txt` (the `Basedir` of the
zero-valued `store`), while the `Get` that follows at once opens
`/spool/2024-01-01/a.txt`, the `Basedir` of the partition whose index holds
`a`; the open fails, `Get` returns the error and transmits nothing. -/
theorem round_trip_lost_on_new_partition :
    NotHeld emptyWorld "a" ∧
    (Post cfg0 calm (some art) emptyWorld).out = [Reply.json true "Saved"] ∧
    (Post cfg0 calm (some art) emptyWorld).ret = Ret.nil ∧
    (Post cfg0 calm (some art) emptyWorld).world.disk = [("a.txt", "x")] ∧
    mget (Post cfg0 calm (some art) emptyWorld).world.Stores "2024-01-01" =
      some ⟨"/spool/2024-01-01/", 100, [("a", ⟨[]⟩)]⟩ ∧
    (Get cfg0 calm "a" "ARTICLE" (Post cfg0 calm (some art) emptyWorld).world).ret =
      Ret.err Step.osOpen ∧
    (Get cfg0 calm "a" "ARTICLE" (Post cfg0 calm (some art) emptyWorld).world).out = [] ∧
    Call.osOpen "/spool/2024-01-01/a.txt" ∈
      (Get cfg0 calm "a" "ARTICLE" (Post cfg0 calm (some art) emptyWorld).world).world.calls := by
  decide

/-- C2 fails on the code when the `Post` creates the partition of the day: the
empty registry satisfies the index-to-file invariant, and after the accepted
`Post` of the article `a` the index of 2024-01-01 holds `a` while no file
exists at `/spool/2024-01-01/a.txt`: the file was created at `a.txt`. -/
theorem index_without_file_on_new_partition :
    IndexHasFiles emptyWorld ∧
    (Post cfg0 calm (some art) emptyWorld).out = [Reply.json true "Saved"] ∧
    ¬ IndexHasFiles (Post cfg0 calm (some art) emptyWorld).world ∧
    mget (Post cfg0 calm (some art) emptyWorld).world.disk "/spool/2024-01-01/a.txt" = none ∧
    Call.osCreate "a.txt" ∈ (Post cfg0 calm (some art) emptyWorld).world.calls := by
  decide

/-- C4 fails on the code when the flush fails: the article `a` passes
validation and the duplicate check, `w.Flush()` fails and the file stays
empty, yet `Post` returns nil and answers "Saved", the index of the day holds
`a`, and both `config.Save` and `config.SaveStats` were called. -/
theorem flush_failure_is_accepted :
    (Post cfg0 flushDown (some art) dayWorld).ret = Ret.nil ∧
    (Post cfg0 flushDown (some art) dayWorld).out = [Reply.json true "Saved"] ∧
    mget (Post cfg0 flushDown (some art) dayWorld).world.disk "/spool/2024-01-01/a.txt" =
      some "" ∧
    mget (Post cfg0 flushDown (some art) dayWorld).world.Stores "2024-01-01" =
      some ⟨"/spool/2024-01-01/", 0, [("a", ⟨[]⟩)]⟩ ∧
    Call.save ⟨"/spool/2024-01-01/", 0, [("a", ⟨[]⟩)]⟩ ∈
      (Post cfg0 flushDown (some art) dayWorld).world.calls ∧
    Call.saveStats "/spool/2024-01-01/" ⟨[("a", ⟨0, 0, 101⟩)]⟩ ∈
      (Post cfg0 flushDown (some art) dayWorld).world.calls := by
  decide

end SpoolMock
